import Mathlib

/-!
The `build` command of docker-slim (`master/commands/build.go`).

A shallow embedding of `commands.OnBuild` and a verification of its
pipeline properties.

`OnBuild` is one straight-line procedure that drives external collaborators
(image inspector, container inspector, HTTP probe, image builder, storage
helpers).  The embedding makes a run a pure function of

* the arguments of `OnBuild`, and
* a `World`: what each collaborator answers when it is called.

A run yields a `Result`: the ordered trace of collaborator calls and waits,
the warnings raised through `utils.WarnOn`, the way the run ends, and the
caller's `continueAfter` structure as the run leaves it (the function
writes to it through the pointer).

Conventions of the embedding:

* a Go `error` is an `Option String` (`none` is `nil`);
* pointer arguments (`clientConfig`, `overrides`, `continueAfter`) and the
  objects returned by successful constructors are non-nil values;
* `dockerclient.New` has no error result: it is the function
  `World.dockerclientNew` from the configuration to the handle;
* the trace records the calls made on the collaborators, the wait that the
  `switch` enters, the release of that wait and the call of `utils.Fail`;
  `fmt`/`log` output, `humanize.Bytes` and `utils.CurrentVersion` only
  produce text and are not recorded;
* `utils.FailOn(err)` and `utils.WarnOn(err)` are the severity helpers
  applied to the error of the call before them: `FailOn` ends the run with
  `Outcome.fatal`, `WarnOn` appends to `Result.warnings`;
* `time.Duration` is Go's `int64` count of nanoseconds: an `Int` with an
  explicit wrap to 64 bits after the multiplication.
-/

namespace DockerSlim

/-! ## Data model -/

/-- Identity of a Go channel value. -/
abbrev Chan := Nat

/-- Go `error`: `none` is `nil`, `some m` an error with message `m`. -/
abbrev Error := Option String

/-- Stand-in for `*config.DockerClient` (declared in package `config`). -/
abbrev DockerClientConfig := String

/-- Stand-in for the handle returned by `dockerclient.New`. -/
abbrev Client := String

/-- Stand-in for `config.HttpProbeCmd` (declared in package `config`). -/
abbrev HttpProbeCmd := String

/-- Stand-in for `config.VolumeMount` (declared in package `config`). -/
abbrev VolumeMount := String

/-- Fields of `config.ContainerOverrides` that `OnBuild` reads (line 40–41). -/
structure ContainerOverrides where
  Entrypoint : List String
  ClearEntrypoint : Bool
  Cmd : List String
  ClearCmd : Bool
  Workdir : String
  Env : List String
  ExposedPorts : List String
deriving DecidableEq, Repr

/-- The structure `config.ContinueAfter`: `Timeout` has type `time.Duration`
(it is multiplied with `time.Second` on line 108), `ContinueChan` is a
receive channel. -/
structure ContinueAfter where
  Mode : String
  Timeout : Int
  ContinueChan : Chan
deriving DecidableEq, Repr

/-- Fields of `imageInspector.ImageInfo` that `OnBuild` reads. -/
structure ImageInfo where
  ID : String
  VirtualSize : Int
deriving DecidableEq, Repr

/-- Fields of `image.Inspector` that `OnBuild` reads or writes. -/
structure ImageInspector where
  ImageInfo : ImageInfo
  SlimImageRepo : String
  ArtifactLocation : String
deriving DecidableEq, Repr

/-- Wrap an integer to Go's `int64` (two's complement, 64 bits). -/
def wrapInt64 (x : Int) : Int := (x + 2 ^ 63) % 2 ^ 64 - 2 ^ 63

/-- The constant `time.Second`, in nanoseconds. -/
def timeSecond : Int := 1000000000

/-- Go's `time.Second * d` on `time.Duration` (an `int64`). -/
def secondsTimes (d : Int) : Int := wrapInt64 (timeSecond * d)

/-- One recorded step of a run: a collaborator call with its arguments, the
wait entered by the `switch` on lines 97–116, the release of that wait, or
the call of `utils.Fail`. -/
inductive Event where
  | ImageNewInspector (client : Client) (imageRef : String)
  | NoImage
  | Inspect
  | PrepareSlimDirs (statePath : String) (imageID : String)
  | ImageProcessCollectedData
  | ContainerNewInspector (client : Client) (imageInspector : ImageInspector)
      (localVolumePath : String) (overrides : ContainerOverrides)
      (doShowContainerLogs : Bool) (volumeMounts : List (String × VolumeMount))
      (excludePaths includePaths : List (String × Bool)) (doDebug : Bool)
  | RunContainer
  | NewCustomProbe (cmds : List HttpProbeCmd)
  | ProbeStart
  | ProbeDoneChan
  | enterReadLine
  | signalRecv (ch : Chan)
  | timeoutAfter (d : Int)
  | probeRecv (ch : Chan)
  | released
  | Fail (msg : String)
  | FinishMonitoring
  | ShutdownContainer
  | HasCollectedData
  | ShowFatImageDockerInstructions
  | ContainerProcessCollectedData
  | NewImageBuilder (client : Client) (tag : String) (imageInfo : ImageInfo)
      (artifactLocation : String) (imageOverrides : List (String × Bool))
      (overrides : ContainerOverrides)
  | Build
  | RemoveArtifacts (artifactLocation : String)
deriving DecidableEq, Repr

/-- How a run ends: the function returns, the process is ended by
`utils.FailOn`/`utils.Fail`, or the run stays blocked in its wait. -/
inductive Outcome where
  | success
  | fatal (cause : String)
  | blocked
deriving DecidableEq, Repr

/-- What a run leaves behind. -/
structure Result where
  trace : List Event
  warnings : List String
  outcome : Outcome
  continueAfter : ContinueAfter
deriving DecidableEq, Repr

/-- The answers of the collaborators during one run. -/
structure World where
  /-- `dockerclient.New`. -/
  dockerclientNew : DockerClientConfig → Client
  /-- Error of `image.NewInspector`. -/
  imageNewInspectorErr : Error
  /-- Result of `imageInspector.NoImage()`. -/
  NoImage : Bool
  /-- Error of `imageInspector.Inspect()`. -/
  InspectErr : Error
  /-- Value of `imageInspector.ImageInfo` once `Inspect` has run. -/
  ImageInfo : ImageInfo
  /-- Value of `imageInspector.SlimImageRepo`. -/
  SlimImageRepo : String
  /-- `utils.PrepareSlimDirs`: `(localVolumePath, artifactLocation)`. -/
  PrepareSlimDirs : String → String → String × String
  /-- Error of `imageInspector.ProcessCollectedData()`. -/
  imageProcessCollectedDataErr : Error
  /-- Error of `container.NewInspector`. -/
  containerNewInspectorErr : Error
  /-- Error of `containerInspector.RunContainer()`. -/
  RunContainerErr : Error
  /-- Error of `http.NewCustomProbe`. -/
  NewCustomProbeErr : Error
  /-- Result of `probe.DoneChan()`. -/
  DoneChan : Chan
  /-- Whether `ReadLine` on standard input ever returns. -/
  stdinReturns : Bool
  /-- Whether a receive on the channel ever completes. -/
  chanFires : Chan → Bool
  /-- Error of `containerInspector.ShutdownContainer()`. -/
  ShutdownContainerErr : Error
  /-- Result of `containerInspector.HasCollectedData()`. -/
  HasCollectedData : Bool
  /-- Error of `containerInspector.ProcessCollectedData()`. -/
  containerProcessCollectedDataErr : Error
  /-- Error of `builder.NewImageBuilder`. -/
  NewImageBuilderErr : Error
  /-- Error of `builder.Build()`. -/
  BuildErr : Error
  /-- Error of `utils.RemoveArtifacts`. -/
  RemoveArtifactsErr : Error

/-! ## The severity helpers of package `utils` -/

/-- Modelled from the spec: `utils.WarnOn(err)` (package `utils` is not part of
the source) logs a non-nil error and returns; the run goes on.  The value
is the list of warnings the call adds. -/
def WarnOn (err : Error) : List String :=
  match err with
  | none => []
  | some m => [m]

/-- Modelled from the spec: `utils.FailOn(err)` (package `utils` is not part of
the source) ends the run on a non-nil error and returns on `nil`.  The value
is the outcome that ends the run, if any. -/
def FailOn (err : Error) : Option Outcome :=
  match err with
  | none => none
  | some m => some (Outcome.fatal m)

/-- Modelled from the spec: `utils.Fail(msg)` (package `utils` is not part of the
source) reports `msg` and ends the run.  The value is the recorded call and
the outcome that ends the run. -/
def Fail (msg : String) : List Event × Option Outcome :=
  ([Event.Fail msg], some (Outcome.fatal msg))

/-! ## `OnBuild` -/

/-- Lines 118–162 of `OnBuild`: finish monitoring, shut the container down,
the data gate, processing of the collected data, the build and the
optional removal of the artifacts.  `t` is the trace so far.
`FinishMonitoring` returns nothing; `builder.HasData` and `builder.RepoName`
are only logged (lines 147–154). -/
def finishBuild (w : World) (client : Client) (artifactLocation : String)
    (customImageTag : String) (doRmFileArtifacts : Bool)
    (imageOverrides : List (String × Bool)) (overrides : ContainerOverrides)
    (continueAfter : ContinueAfter) (t : List Event) : Result :=
  let t := t ++ [Event.FinishMonitoring]
  let t := t ++ [Event.ShutdownContainer]
  let warns := WarnOn w.ShutdownContainerErr
  let t := t ++ [Event.HasCollectedData]
  if !w.HasCollectedData then
    ⟨t ++ [Event.ShowFatImageDockerInstructions], warns, Outcome.success, continueAfter⟩
  else
  let t := t ++ [Event.ContainerProcessCollectedData]
  match FailOn w.containerProcessCollectedDataErr with
  | some o => ⟨t, warns, o, continueAfter⟩
  | none =>
  let customImageTag := if customImageTag = "" then w.SlimImageRepo else customImageTag
  let t := t ++ [Event.NewImageBuilder client customImageTag w.ImageInfo artifactLocation
    imageOverrides overrides]
  match FailOn w.NewImageBuilderErr with
  | some o => ⟨t, warns, o, continueAfter⟩
  | none =>
  let t := t ++ [Event.Build]
  match FailOn w.BuildErr with
  | some o => ⟨t, warns, o, continueAfter⟩
  | none =>
  if doRmFileArtifacts then
    ⟨t ++ [Event.RemoveArtifacts artifactLocation], warns ++ WarnOn w.RemoveArtifactsErr,
      Outcome.success, continueAfter⟩
  else
    ⟨t, warns, Outcome.success, continueAfter⟩

/-- Lines 86–95 of `OnBuild`: mode `probe` turns probing on; with probing on
the probe is built and started and its done channel is stored in
`continueAfter.ContinueChan`.  The value is the events of these lines, the
outcome when `utils.FailOn` ends the run here, and `continueAfter` as these
lines leave it. -/
def startProbe (w : World) (doHttpProbe : Bool) (httpProbeCmds : List HttpProbeCmd)
    (continueAfter : ContinueAfter) : List Event × Option Outcome × ContinueAfter :=
  let doHttpProbe := if "probe" = continueAfter.Mode then true else doHttpProbe
  if doHttpProbe then
    match FailOn w.NewCustomProbeErr with
    | some o => ([Event.NewCustomProbe httpProbeCmds], some o, continueAfter)
    | none =>
      ([Event.NewCustomProbe httpProbeCmds, Event.ProbeStart, Event.ProbeDoneChan], none,
        { continueAfter with ContinueChan := w.DoneChan })
  else
    ([], none, continueAfter)

/-- Lines 97–116 of `OnBuild`: the `switch` on `continueAfter.Mode`.  The
value is the events of the branch taken and, when the run does not get
past the `switch`, the way it ends.  A timer always fires; the other
waits return when the world lets them. -/
def continueAfterSwitch (w : World) (continueAfter : ContinueAfter) :
    List Event × Option Outcome :=
  if continueAfter.Mode = "enter" then
    if w.stdinReturns then ([Event.enterReadLine, Event.released], none)
    else ([Event.enterReadLine], some Outcome.blocked)
  else if continueAfter.Mode = "signal" then
    if w.chanFires continueAfter.ContinueChan then
      ([Event.signalRecv continueAfter.ContinueChan, Event.released], none)
    else ([Event.signalRecv continueAfter.ContinueChan], some Outcome.blocked)
  else if continueAfter.Mode = "timeout" then
    ([Event.timeoutAfter (secondsTimes continueAfter.Timeout), Event.released], none)
  else if continueAfter.Mode = "probe" then
    if w.chanFires continueAfter.ContinueChan then
      ([Event.probeRecv continueAfter.ContinueChan, Event.released], none)
    else ([Event.probeRecv continueAfter.ContinueChan], some Outcome.blocked)
  else
    Fail "unknown continue-after mode"

/-- The function `commands.OnBuild` (lines 21–163). -/
def OnBuild (w : World) (doDebug : Bool) (statePath : String)
    (clientConfig : DockerClientConfig) (imageRef : String) (customImageTag : String)
    (doHttpProbe : Bool) (httpProbeCmds : List HttpProbeCmd)
    (doRmFileArtifacts : Bool) (doShowContainerLogs : Bool)
    (imageOverrides : List (String × Bool)) (overrides : ContainerOverrides)
    (volumeMounts : List (String × VolumeMount))
    (excludePaths : List (String × Bool)) (includePaths : List (String × Bool))
    (continueAfter : ContinueAfter) : Result :=
  let client := w.dockerclientNew clientConfig
  let t := [Event.ImageNewInspector client imageRef]
  match FailOn w.imageNewInspectorErr with
  | some o => ⟨t, [], o, continueAfter⟩
  | none =>
  let t := t ++ [Event.NoImage]
  if w.NoImage then ⟨t, [], Outcome.success, continueAfter⟩ else
  let t := t ++ [Event.Inspect]
  match FailOn w.InspectErr with
  | some o => ⟨t, [], o, continueAfter⟩
  | none =>
  let t := t ++ [Event.PrepareSlimDirs statePath w.ImageInfo.ID]
  let dirs := w.PrepareSlimDirs statePath w.ImageInfo.ID
  let localVolumePath := dirs.1
  let artifactLocation := dirs.2
  let imageInspector : ImageInspector := ⟨w.ImageInfo, w.SlimImageRepo, artifactLocation⟩
  let t := t ++ [Event.ImageProcessCollectedData]
  match FailOn w.imageProcessCollectedDataErr with
  | some o => ⟨t, [], o, continueAfter⟩
  | none =>
  let t := t ++ [Event.ContainerNewInspector client imageInspector localVolumePath overrides
    doShowContainerLogs volumeMounts excludePaths includePaths doDebug]
  match FailOn w.containerNewInspectorErr with
  | some o => ⟨t, [], o, continueAfter⟩
  | none =>
  let t := t ++ [Event.RunContainer]
  match FailOn w.RunContainerErr with
  | some o => ⟨t, [], o, continueAfter⟩
  | none =>
  let pr := startProbe w doHttpProbe httpProbeCmds continueAfter
  match pr.2.1 with
  | some o => ⟨t ++ pr.1, [], o, continueAfter⟩
  | none =>
  let continueAfter := pr.2.2
  let sw := continueAfterSwitch w continueAfter
  match sw.2 with
  | some o => ⟨t ++ pr.1 ++ sw.1, [], o, continueAfter⟩
  | none =>
  finishBuild w client artifactLocation customImageTag doRmFileArtifacts imageOverrides
    overrides continueAfter (t ++ pr.1 ++ sw.1)

/-! ## Reading a trace -/

/-- The four branches of the `switch` that wait. -/
inductive Branch where
  | enter | signal | timeout | probe
deriving DecidableEq, Repr

/-- The branch of the `switch` an event belongs to, for the events that
enter a wait. -/
def Event.branch : Event → Option Branch
  | Event.enterReadLine => some Branch.enter
  | Event.signalRecv _ => some Branch.signal
  | Event.timeoutAfter _ => some Branch.timeout
  | Event.probeRecv _ => some Branch.probe
  | _ => none

/-- The wait branches a trace went through, in order. -/
def branches (t : List Event) : List Branch := t.filterMap Event.branch

/-- The function called by an event, without its arguments. -/
inductive Call where
  | ImageNewInspector | NoImage | Inspect | PrepareSlimDirs | ImageProcessCollectedData
  | ContainerNewInspector | RunContainer | NewCustomProbe | ProbeStart | ProbeDoneChan
  | wait | released | Fail | FinishMonitoring | ShutdownContainer | HasCollectedData
  | ShowFatImageDockerInstructions | ContainerProcessCollectedData | NewImageBuilder
  | Build | RemoveArtifacts
deriving DecidableEq, Repr

/-- The function an event calls. -/
def Event.call : Event → Call
  | Event.ImageNewInspector _ _ => Call.ImageNewInspector
  | Event.NoImage => Call.NoImage
  | Event.Inspect => Call.Inspect
  | Event.PrepareSlimDirs _ _ => Call.PrepareSlimDirs
  | Event.ImageProcessCollectedData => Call.ImageProcessCollectedData
  | Event.ContainerNewInspector _ _ _ _ _ _ _ _ _ => Call.ContainerNewInspector
  | Event.RunContainer => Call.RunContainer
  | Event.NewCustomProbe _ => Call.NewCustomProbe
  | Event.ProbeStart => Call.ProbeStart
  | Event.ProbeDoneChan => Call.ProbeDoneChan
  | Event.enterReadLine => Call.wait
  | Event.signalRecv _ => Call.wait
  | Event.timeoutAfter _ => Call.wait
  | Event.probeRecv _ => Call.wait
  | Event.released => Call.released
  | Event.Fail _ => Call.Fail
  | Event.FinishMonitoring => Call.FinishMonitoring
  | Event.ShutdownContainer => Call.ShutdownContainer
  | Event.HasCollectedData => Call.HasCollectedData
  | Event.ShowFatImageDockerInstructions => Call.ShowFatImageDockerInstructions
  | Event.ContainerProcessCollectedData => Call.ContainerProcessCollectedData
  | Event.NewImageBuilder _ _ _ _ _ _ => Call.NewImageBuilder
  | Event.Build => Call.Build
  | Event.RemoveArtifacts _ => Call.RemoveArtifacts

/-- The calls of a trace, in order, without their arguments. -/
def calls (t : List Event) : List Call := t.map Event.call

/-- The calls of lines 45–82 succeed and the image exists: the run gets past
`RunContainer`. -/
def World.launches (w : World) : Prop :=
  w.imageNewInspectorErr = none ∧ w.NoImage = false ∧ w.InspectErr = none ∧
  w.imageProcessCollectedDataErr = none ∧ w.containerNewInspectorErr = none ∧
  w.RunContainerErr = none


/-- A world in which every call succeeds, the image exists, data was
collected and every wait is released. -/
def okWorld : World where
  dockerclientNew := fun c => "client:" ++ c
  imageNewInspectorErr := none
  NoImage := false
  InspectErr := none
  ImageInfo := ⟨"sha256:abc", 1000⟩
  SlimImageRepo := "app.slim"
  PrepareSlimDirs := fun s i => (s ++ "/" ++ i, s ++ "/" ++ i ++ "/artifacts")
  imageProcessCollectedDataErr := none
  containerNewInspectorErr := none
  RunContainerErr := none
  NewCustomProbeErr := none
  DoneChan := 7
  stdinReturns := true
  chanFires := fun _ => true
  ShutdownContainerErr := none
  HasCollectedData := true
  containerProcessCollectedDataErr := none
  NewImageBuilderErr := none
  BuildErr := none
  RemoveArtifactsErr := none

/-- The world `w` with the errors of the two calls whose error goes to
`utils.WarnOn` replaced: `ShutdownContainer` returns `e1`, `RemoveArtifacts`
returns `e2`. -/
def World.withWarnErrors (w : World) (e1 e2 : Error) : World :=
  { w with ShutdownContainerErr := e1, RemoveArtifactsErr := e2 }

/-- The world `w` with other releases of the waits: standard input returns
as `b` says, channels fire as `f` says. -/
def World.withReleases (w : World) (b : Bool) (f : Chan → Bool) : World :=
  { w with stdinReturns := b, chanFires := f }

/-- The world `okWorld` without the image. -/
def noImageWorld : World := { okWorld with NoImage := true }

/-- Overrides that set nothing. -/
def noOverrides : ContainerOverrides := ⟨[], false, [], false, "", [], []⟩

/-- The arguments of one call of `OnBuild`, in the order of its parameters. -/
structure BuildRequest where
  doDebug : Bool
  statePath : String
  clientConfig : DockerClientConfig
  imageRef : String
  customImageTag : String
  doHttpProbe : Bool
  httpProbeCmds : List HttpProbeCmd
  doRmFileArtifacts : Bool
  doShowContainerLogs : Bool
  imageOverrides : List (String × Bool)
  overrides : ContainerOverrides
  volumeMounts : List (String × VolumeMount)
  excludePaths : List (String × Bool)
  includePaths : List (String × Bool)
  continueAfter : ContinueAfter
deriving DecidableEq, Repr

/-- The run of `OnBuild` on the arguments `q` in the world `w`. -/
def run (w : World) (q : BuildRequest) : Result :=
  OnBuild w q.doDebug q.statePath q.clientConfig q.imageRef q.customImageTag q.doHttpProbe
    q.httpProbeCmds q.doRmFileArtifacts q.doShowContainerLogs q.imageOverrides q.overrides
    q.volumeMounts q.excludePaths q.includePaths q.continueAfter

/-- The trace of lines 45–82 when every call there succeeds. -/
def launchTrace (w : World) (q : BuildRequest) : List Event :=
  [Event.ImageNewInspector (w.dockerclientNew q.clientConfig) q.imageRef,
   Event.NoImage,
   Event.Inspect,
   Event.PrepareSlimDirs q.statePath w.ImageInfo.ID,
   Event.ImageProcessCollectedData,
   Event.ContainerNewInspector (w.dockerclientNew q.clientConfig)
     ⟨w.ImageInfo, w.SlimImageRepo, (w.PrepareSlimDirs q.statePath w.ImageInfo.ID).2⟩
     (w.PrepareSlimDirs q.statePath w.ImageInfo.ID).1 q.overrides q.doShowContainerLogs
     q.volumeMounts q.excludePaths q.includePaths q.doDebug,
   Event.RunContainer]

/-- Line 86–90: a probe is built when probing is requested or the mode is
`probe`. -/
def BuildRequest.probing (q : BuildRequest) : Prop :=
  q.doHttpProbe = true ∨ q.continueAfter.Mode = "probe"

/-- The run gets to the `switch` of line 97: it gets past `RunContainer` and,
when a probe is built, `http.NewCustomProbe` succeeds. -/
def reachesWait (w : World) (q : BuildRequest) : Prop :=
  w.launches ∧ (q.probing → w.NewCustomProbeErr = none)

/-- The client handle of a run. -/
def BuildRequest.client (q : BuildRequest) (w : World) : Client :=
  w.dockerclientNew q.clientConfig

/-- The artifact location of a run: the second result of `utils.PrepareSlimDirs`. -/
def BuildRequest.artifactLocation (q : BuildRequest) (w : World) : String :=
  (w.PrepareSlimDirs q.statePath w.ImageInfo.ID).2

/-- A request for image `app`: no custom tag, no probing, removal of the
artifacts, wait for `enter`. -/
def okRequest : BuildRequest where
  doDebug := false
  statePath := "/state"
  clientConfig := "unix"
  imageRef := "app"
  customImageTag := ""
  doHttpProbe := false
  httpProbeCmds := ["GET /"]
  doRmFileArtifacts := true
  doShowContainerLogs := false
  imageOverrides := []
  overrides := noOverrides
  volumeMounts := []
  excludePaths := []
  includePaths := []
  continueAfter := ⟨"enter", 5, 3⟩

/-- The request `okRequest` with a mode the `switch` does not know. -/
def bogusRequest : BuildRequest := { okRequest with continueAfter := ⟨"bogus", 5, 3⟩ }

/-- The request `okRequest` with a custom tag. -/
def taggedRequest : BuildRequest := { okRequest with customImageTag := "my/tag" }

/-- The request `okRequest` with probing requested and mode `enter`. -/
def probeEnterRequest : BuildRequest := { okRequest with doHttpProbe := true }

/-- The request `okRequest` with probing requested and mode `signal`. -/
def probeSignalRequest : BuildRequest :=
  { okRequest with doHttpProbe := true, continueAfter := ⟨"signal", 5, 3⟩ }

/-- The request `okRequest` in mode `timeout` with 5 seconds. -/
def timeoutRequest : BuildRequest := { okRequest with continueAfter := ⟨"timeout", 5, 3⟩ }

/-- The request `okRequest` in mode `timeout` with 9223372037 seconds. -/
def longTimeoutRequest : BuildRequest :=
  { okRequest with continueAfter := ⟨"timeout", 9223372037, 3⟩ }

/-- The world `okWorld` in which `builder.Build` fails. -/
def buildFailWorld : World := { okWorld with BuildErr := some "build failed" }

/-- The world `okWorld` in which the container collected no data. -/
def noDataWorld : World := { okWorld with HasCollectedData := false }

/-- Every occurrence of `b` in the list has an `a` somewhere before it. -/
def precededBy (a b : Call) : List Call → Prop
  | [] => True
  | x :: xs => x = a ∨ (x ≠ b ∧ precededBy a b xs)

instance precededByDecidable (a b : Call) : (l : List Call) → Decidable (precededBy a b l)
  | [] => isTrue trivial
  | x :: xs =>
    have := precededByDecidable a b xs
    inferInstanceAs (Decidable (x = a ∨ (x ≠ b ∧ precededBy a b xs)))

/-- The calls whose error goes to `utils.FailOn` and that belong to the five
later phases of the pipeline (lines 54–152). -/
def fatalTier : List Call :=
  [Call.Inspect, Call.ImageProcessCollectedData, Call.ContainerNewInspector, Call.RunContainer,
   Call.ContainerProcessCollectedData, Call.NewImageBuilder, Call.Build]

/-- The error a call returns in the world `w`, for the calls that return one. -/
def World.errorOf (w : World) : Call → Error
  | Call.ImageNewInspector => w.imageNewInspectorErr
  | Call.Inspect => w.InspectErr
  | Call.ImageProcessCollectedData => w.imageProcessCollectedDataErr
  | Call.ContainerNewInspector => w.containerNewInspectorErr
  | Call.RunContainer => w.RunContainerErr
  | Call.NewCustomProbe => w.NewCustomProbeErr
  | Call.ShutdownContainer => w.ShutdownContainerErr
  | Call.ContainerProcessCollectedData => w.containerProcessCollectedDataErr
  | Call.NewImageBuilder => w.NewImageBuilderErr
  | Call.Build => w.BuildErr
  | Call.RemoveArtifacts => w.RemoveArtifactsErr
  | _ => none

/-- The modes for which the `switch` of lines 97–116 has a `case`. -/
def waitModes : List String := ["enter", "signal", "timeout", "probe"]

/-- The calls of lines 45–82 when every call there succeeds. -/
def launchCalls : List Call :=
  [Call.ImageNewInspector, Call.NoImage, Call.Inspect, Call.PrepareSlimDirs,
   Call.ImageProcessCollectedData, Call.ContainerNewInspector, Call.RunContainer]

/-- The calls of lines 90–95 when a probe is built and started. -/
def probeCalls : List Call := [Call.NewCustomProbe, Call.ProbeStart, Call.ProbeDoneChan]

/-- The wait, its release and the calls of lines 118–124. -/
def harvestCalls : List Call :=
  [Call.wait, Call.released, Call.FinishMonitoring, Call.ShutdownContainer,
   Call.HasCollectedData]

/-- The calls that lines 118–162 can make. -/
def finishCalls : List Call :=
  [Call.FinishMonitoring, Call.ShutdownContainer, Call.HasCollectedData,
   Call.ShowFatImageDockerInstructions, Call.ContainerProcessCollectedData,
   Call.NewImageBuilder, Call.Build, Call.RemoveArtifacts]

/-! ## The stages of a run, as relations

The four predicates below list, stage by stage, what the lines of `OnBuild`
can produce.  They are used to take a run apart (`run_shape`). -/

/-- Lines 86–95 when they do not end the run: a probe is started and its
channel stored, or nothing happens. -/
def armed (w : World) (q : BuildRequest) (evs : List Event) (ca : ContinueAfter) : Prop :=
  (q.probing ∧ w.NewCustomProbeErr = none ∧
    evs = [Event.NewCustomProbe q.httpProbeCmds, Event.ProbeStart, Event.ProbeDoneChan] ∧
    ca = ⟨q.continueAfter.Mode, q.continueAfter.Timeout, w.DoneChan⟩) ∨
  (q.doHttpProbe = false ∧ q.continueAfter.Mode ≠ "probe" ∧ evs = [] ∧ ca = q.continueAfter)

/-- Lines 97–116 when the run does not get past them. -/
def halted (w : World) (ca : ContinueAfter) (evs : List Event) (o : Outcome) : Prop :=
  (ca.Mode = "enter" ∧ w.stdinReturns = false ∧ evs = [Event.enterReadLine] ∧
    o = Outcome.blocked) ∨
  (ca.Mode = "signal" ∧ w.chanFires ca.ContinueChan = false ∧
    evs = [Event.signalRecv ca.ContinueChan] ∧ o = Outcome.blocked) ∨
  (ca.Mode = "probe" ∧ w.chanFires ca.ContinueChan = false ∧
    evs = [Event.probeRecv ca.ContinueChan] ∧ o = Outcome.blocked) ∨
  (ca.Mode ≠ "enter" ∧ ca.Mode ≠ "signal" ∧ ca.Mode ≠ "timeout" ∧ ca.Mode ≠ "probe" ∧
    evs = [Event.Fail "unknown continue-after mode"] ∧
    o = Outcome.fatal "unknown continue-after mode")

/-- Lines 97–116 when the wait is released. -/
def releasedBy (w : World) (ca : ContinueAfter) (evs : List Event) : Prop :=
  (ca.Mode = "enter" ∧ w.stdinReturns = true ∧ evs = [Event.enterReadLine, Event.released]) ∨
  (ca.Mode = "signal" ∧ w.chanFires ca.ContinueChan = true ∧
    evs = [Event.signalRecv ca.ContinueChan, Event.released]) ∨
  (ca.Mode = "timeout" ∧
    evs = [Event.timeoutAfter (secondsTimes ca.Timeout), Event.released]) ∨
  (ca.Mode = "probe" ∧ w.chanFires ca.ContinueChan = true ∧
    evs = [Event.probeRecv ca.ContinueChan, Event.released])

/-- The call of `builder.NewImageBuilder` of a run (lines 134–144). -/
def BuildRequest.newImageBuilder (q : BuildRequest) (w : World) : Event :=
  Event.NewImageBuilder (w.dockerclientNew q.clientConfig)
    (if q.customImageTag = "" then w.SlimImageRepo else q.customImageTag) w.ImageInfo
    (w.PrepareSlimDirs q.statePath w.ImageInfo.ID).2 q.imageOverrides q.overrides

/-- Lines 118–162: the events, warnings and outcome they can produce. -/
def finished (w : World) (q : BuildRequest) (evs : List Event) (warns : List String)
    (o : Outcome) : Prop :=
  (w.HasCollectedData = false ∧
    evs = [Event.FinishMonitoring, Event.ShutdownContainer, Event.HasCollectedData,
      Event.ShowFatImageDockerInstructions] ∧
    warns = WarnOn w.ShutdownContainerErr ∧ o = Outcome.success) ∨
  (∃ m, w.HasCollectedData = true ∧ w.containerProcessCollectedDataErr = some m ∧
    evs = [Event.FinishMonitoring, Event.ShutdownContainer, Event.HasCollectedData,
      Event.ContainerProcessCollectedData] ∧
    warns = WarnOn w.ShutdownContainerErr ∧ o = Outcome.fatal m) ∨
  (∃ m, w.HasCollectedData = true ∧ w.containerProcessCollectedDataErr = none ∧
    w.NewImageBuilderErr = some m ∧
    evs = [Event.FinishMonitoring, Event.ShutdownContainer, Event.HasCollectedData,
      Event.ContainerProcessCollectedData, q.newImageBuilder w] ∧
    warns = WarnOn w.ShutdownContainerErr ∧ o = Outcome.fatal m) ∨
  (∃ m, w.HasCollectedData = true ∧ w.containerProcessCollectedDataErr = none ∧
    w.NewImageBuilderErr = none ∧ w.BuildErr = some m ∧
    evs = [Event.FinishMonitoring, Event.ShutdownContainer, Event.HasCollectedData,
      Event.ContainerProcessCollectedData, q.newImageBuilder w, Event.Build] ∧
    warns = WarnOn w.ShutdownContainerErr ∧ o = Outcome.fatal m) ∨
  (w.HasCollectedData = true ∧ w.containerProcessCollectedDataErr = none ∧
    w.NewImageBuilderErr = none ∧ w.BuildErr = none ∧ q.doRmFileArtifacts = true ∧
    evs = [Event.FinishMonitoring, Event.ShutdownContainer, Event.HasCollectedData,
      Event.ContainerProcessCollectedData, q.newImageBuilder w, Event.Build,
      Event.RemoveArtifacts (q.artifactLocation w)] ∧
    warns = WarnOn w.ShutdownContainerErr ++ WarnOn w.RemoveArtifactsErr ∧
    o = Outcome.success) ∨
  (w.HasCollectedData = true ∧ w.containerProcessCollectedDataErr = none ∧
    w.NewImageBuilderErr = none ∧ w.BuildErr = none ∧ q.doRmFileArtifacts = false ∧
    evs = [Event.FinishMonitoring, Event.ShutdownContainer, Event.HasCollectedData,
      Event.ContainerProcessCollectedData, q.newImageBuilder w, Event.Build] ∧
    warns = WarnOn w.ShutdownContainerErr ∧ o = Outcome.success)

/-! ## Theorems -/

/-! ### Lists and arithmetic -/

/-- Meaning of `precededBy`: whenever the list splits around an occurrence of
`b`, the part before it contains `a`. -/
theorem precededBy_iff (a b : Call) (hab : a ≠ b) (l : List Call) :
    precededBy a b l ↔ ∀ pre post, l = pre ++ b :: post → a ∈ pre := by
  induction l with
  | nil => simp [precededBy]
  | cons x xs ih =>
    simp only [precededBy, ih]
    constructor
    · rintro (rfl | ⟨hx, h⟩) pre post hsplit
      · cases pre with
        | nil => simp at hsplit; exact absurd hsplit.1 hab
        | cons p ps => simp at hsplit; simp [hsplit.1]
      · cases pre with
        | nil => simp at hsplit; exact absurd hsplit.1 hx
        | cons p ps =>
          simp at hsplit
          exact List.mem_cons_of_mem _ (h ps post hsplit.2)
    · intro h
      by_cases hxa : x = a
      · exact Or.inl hxa
      · refine Or.inr ⟨?_, ?_⟩
        · intro hxb
          have := h [] xs (by simp [hxb])
          simp at this
        · intro pre post hsplit
          have := h (x :: pre) post (by simp [hsplit])
          rcases List.mem_cons.1 this with hax | hmem
          · exact absurd hax.symm hxa
          · exact hmem

/-- Within 9223372036 seconds either way, `time.Second * d` does not wrap. -/
theorem secondsTimes_eq (d : Int) (hlo : -9223372036 ≤ d) (hhi : d ≤ 9223372036) :
    secondsTimes d = timeSecond * d := by
  unfold secondsTimes wrapInt64 timeSecond
  norm_num
  omega

/-- The wait branches of a concatenation. -/
theorem branches_append (a b : List Event) : branches (a ++ b) = branches a ++ branches b := by
  simp [branches]

/-- The number of wait branches of a trace is the number of its wait events. -/
theorem branches_length (t : List Event) :
    (branches t).length = (calls t).count Call.wait := by
  induction t with
  | nil => rfl
  | cons e es ih =>
    cases e <;> simp_all [branches, calls, Event.branch, Event.call, List.filterMap_cons]

/-- An event of a trace has its call among the calls of the trace. -/
theorem call_mem_calls {e : Event} {t : List Event} (h : e ∈ t) : e.call ∈ calls t :=
  List.mem_map_of_mem Event.call h

/-! ### The shape of a run -/

/-- Lines 45–82: the run ends at the first call that fails or at a missing
image, or it gets past `RunContainer`. -/
theorem launch_cases (w : World) (q : BuildRequest) :
    (∃ m, w.imageNewInspectorErr = some m ∧
      run w q = ⟨(launchTrace w q).take 1, [], Outcome.fatal m, q.continueAfter⟩) ∨
    (w.imageNewInspectorErr = none ∧ w.NoImage = true ∧
      run w q = ⟨(launchTrace w q).take 2, [], Outcome.success, q.continueAfter⟩) ∨
    (∃ m, w.imageNewInspectorErr = none ∧ w.NoImage = false ∧ w.InspectErr = some m ∧
      run w q = ⟨(launchTrace w q).take 3, [], Outcome.fatal m, q.continueAfter⟩) ∨
    (∃ m, w.imageNewInspectorErr = none ∧ w.NoImage = false ∧ w.InspectErr = none ∧
      w.imageProcessCollectedDataErr = some m ∧
      run w q = ⟨(launchTrace w q).take 5, [], Outcome.fatal m, q.continueAfter⟩) ∨
    (∃ m, w.imageNewInspectorErr = none ∧ w.NoImage = false ∧ w.InspectErr = none ∧
      w.imageProcessCollectedDataErr = none ∧ w.containerNewInspectorErr = some m ∧
      run w q = ⟨(launchTrace w q).take 6, [], Outcome.fatal m, q.continueAfter⟩) ∨
    (∃ m, w.imageNewInspectorErr = none ∧ w.NoImage = false ∧ w.InspectErr = none ∧
      w.imageProcessCollectedDataErr = none ∧ w.containerNewInspectorErr = none ∧
      w.RunContainerErr = some m ∧
      run w q = ⟨launchTrace w q, [], Outcome.fatal m, q.continueAfter⟩) ∨
    w.launches := by
  rcases h1 : w.imageNewInspectorErr with _ | m
  swap
  · exact Or.inl ⟨m, rfl, by simp [run, OnBuild, FailOn, launchTrace, h1]⟩
  rcases h2 : w.NoImage with _ | _
  swap
  · exact Or.inr (Or.inl ⟨rfl, rfl, by simp [run, OnBuild, FailOn, launchTrace, h1, h2]⟩)
  rcases h3 : w.InspectErr with _ | m
  swap
  · exact Or.inr (Or.inr (Or.inl ⟨m, rfl, rfl, rfl,
      by simp [run, OnBuild, FailOn, launchTrace, h1, h2, h3]⟩))
  rcases h4 : w.imageProcessCollectedDataErr with _ | m
  swap
  · exact Or.inr (Or.inr (Or.inr (Or.inl ⟨m, rfl, rfl, rfl, rfl,
      by simp [run, OnBuild, FailOn, launchTrace, h1, h2, h3, h4]⟩)))
  rcases h5 : w.containerNewInspectorErr with _ | m
  swap
  · exact Or.inr (Or.inr (Or.inr (Or.inr (Or.inl ⟨m, rfl, rfl, rfl, rfl, rfl,
      by simp [run, OnBuild, FailOn, launchTrace, h1, h2, h3, h4, h5]⟩))))
  rcases h6 : w.RunContainerErr with _ | m
  swap
  · exact Or.inr (Or.inr (Or.inr (Or.inr (Or.inr (Or.inl ⟨m, rfl, rfl, rfl, rfl, rfl, rfl,
      by simp [run, OnBuild, FailOn, launchTrace, h1, h2, h3, h4, h5, h6]⟩)))))
  exact Or.inr (Or.inr (Or.inr (Or.inr (Or.inr (Or.inr ⟨h1, h2, h3, h4, h5, h6⟩)))))

/-- A run that gets past `RunContainer` is the probe start, the `switch` and
the finishing lines run after the launch trace. -/
theorem run_of_launches (w : World) (q : BuildRequest) (h : w.launches) :
    run w q =
    match (startProbe w q.doHttpProbe q.httpProbeCmds q.continueAfter).2.1 with
    | some o =>
      ⟨launchTrace w q ++ (startProbe w q.doHttpProbe q.httpProbeCmds q.continueAfter).1, [], o,
        q.continueAfter⟩
    | none =>
      match (continueAfterSwitch w
        (startProbe w q.doHttpProbe q.httpProbeCmds q.continueAfter).2.2).2 with
      | some o =>
        ⟨launchTrace w q ++ (startProbe w q.doHttpProbe q.httpProbeCmds q.continueAfter).1 ++
          (continueAfterSwitch w
            (startProbe w q.doHttpProbe q.httpProbeCmds q.continueAfter).2.2).1, [], o,
          (startProbe w q.doHttpProbe q.httpProbeCmds q.continueAfter).2.2⟩
      | none =>
        finishBuild w (q.client w) (q.artifactLocation w) q.customImageTag q.doRmFileArtifacts
          q.imageOverrides q.overrides
          (startProbe w q.doHttpProbe q.httpProbeCmds q.continueAfter).2.2
          (launchTrace w q ++ (startProbe w q.doHttpProbe q.httpProbeCmds q.continueAfter).1 ++
            (continueAfterSwitch w
              (startProbe w q.doHttpProbe q.httpProbeCmds q.continueAfter).2.2).1) := by
  obtain ⟨h1, h2, h3, h4, h5, h6⟩ := h
  simp [run, OnBuild, FailOn, launchTrace, BuildRequest.client, BuildRequest.artifactLocation,
    h1, h2, h3, h4, h5, h6]

/-- Lines 86–95: the three ways the probe start can go. -/
theorem startProbe_cases (w : World) (b : Bool) (cmds : List HttpProbeCmd)
    (ca : ContinueAfter) :
    (∃ m, (b = true ∨ ca.Mode = "probe") ∧ w.NewCustomProbeErr = some m ∧
      startProbe w b cmds ca = ([Event.NewCustomProbe cmds], some (Outcome.fatal m), ca)) ∨
    ((b = true ∨ ca.Mode = "probe") ∧ w.NewCustomProbeErr = none ∧
      startProbe w b cmds ca =
        ([Event.NewCustomProbe cmds, Event.ProbeStart, Event.ProbeDoneChan], none,
          ⟨ca.Mode, ca.Timeout, w.DoneChan⟩)) ∨
    (b = false ∧ ca.Mode ≠ "probe" ∧ startProbe w b cmds ca = ([], none, ca)) := by
  by_cases hp : "probe" = ca.Mode
  · rcases he : w.NewCustomProbeErr with _ | m
    · exact Or.inr (Or.inl ⟨Or.inr hp.symm, rfl, by simp [startProbe, FailOn, hp, he]⟩)
    · exact Or.inl ⟨m, Or.inr hp.symm, rfl, by simp [startProbe, FailOn, hp, he]⟩
  · cases b
    · exact Or.inr (Or.inr ⟨rfl, fun h => hp h.symm, by simp [startProbe, hp]⟩)
    · rcases he : w.NewCustomProbeErr with _ | m
      · exact Or.inr (Or.inl ⟨Or.inl rfl, rfl, by simp [startProbe, FailOn, hp, he]⟩)
      · exact Or.inl ⟨m, Or.inl rfl, rfl, by simp [startProbe, FailOn, hp, he]⟩

/-- Lines 97–116: the eight ways the `switch` can go. -/
theorem switch_cases (w : World) (ca : ContinueAfter) :
    (ca.Mode = "enter" ∧ w.stdinReturns = true ∧
      continueAfterSwitch w ca = ([Event.enterReadLine, Event.released], none)) ∨
    (ca.Mode = "enter" ∧ w.stdinReturns = false ∧
      continueAfterSwitch w ca = ([Event.enterReadLine], some Outcome.blocked)) ∨
    (ca.Mode = "signal" ∧ w.chanFires ca.ContinueChan = true ∧
      continueAfterSwitch w ca = ([Event.signalRecv ca.ContinueChan, Event.released], none)) ∨
    (ca.Mode = "signal" ∧ w.chanFires ca.ContinueChan = false ∧
      continueAfterSwitch w ca = ([Event.signalRecv ca.ContinueChan], some Outcome.blocked)) ∨
    (ca.Mode = "timeout" ∧
      continueAfterSwitch w ca =
        ([Event.timeoutAfter (secondsTimes ca.Timeout), Event.released], none)) ∨
    (ca.Mode = "probe" ∧ w.chanFires ca.ContinueChan = true ∧
      continueAfterSwitch w ca = ([Event.probeRecv ca.ContinueChan, Event.released], none)) ∨
    (ca.Mode = "probe" ∧ w.chanFires ca.ContinueChan = false ∧
      continueAfterSwitch w ca = ([Event.probeRecv ca.ContinueChan], some Outcome.blocked)) ∨
    (ca.Mode ≠ "enter" ∧ ca.Mode ≠ "signal" ∧ ca.Mode ≠ "timeout" ∧ ca.Mode ≠ "probe" ∧
      continueAfterSwitch w ca =
        ([Event.Fail "unknown continue-after mode"],
          some (Outcome.fatal "unknown continue-after mode"))) := by
  by_cases h1 : ca.Mode = "enter"
  · cases h : w.stdinReturns <;> simp [continueAfterSwitch, h1, h]
  by_cases h2 : ca.Mode = "signal"
  · cases h : w.chanFires ca.ContinueChan <;> simp [continueAfterSwitch, h2, h]
  by_cases h3 : ca.Mode = "timeout"
  · simp [continueAfterSwitch, h3]
  by_cases h4 : ca.Mode = "probe"
  · cases h : w.chanFires ca.ContinueChan <;> simp [continueAfterSwitch, h4, h]
  · simp [continueAfterSwitch, Fail, h1, h2, h3, h4]

/-- Lines 118–162: the six ways the finishing lines can go. -/
theorem finishBuild_cases (w : World) (client : Client) (loc tag : String) (rm : Bool)
    (io : List (String × Bool)) (ov : ContainerOverrides) (ca : ContinueAfter)
    (t : List Event) :
    (w.HasCollectedData = false ∧
      finishBuild w client loc tag rm io ov ca t =
        ⟨t ++ [Event.FinishMonitoring, Event.ShutdownContainer, Event.HasCollectedData,
          Event.ShowFatImageDockerInstructions], WarnOn w.ShutdownContainerErr,
          Outcome.success, ca⟩) ∨
    (∃ m, w.HasCollectedData = true ∧ w.containerProcessCollectedDataErr = some m ∧
      finishBuild w client loc tag rm io ov ca t =
        ⟨t ++ [Event.FinishMonitoring, Event.ShutdownContainer, Event.HasCollectedData,
          Event.ContainerProcessCollectedData], WarnOn w.ShutdownContainerErr,
          Outcome.fatal m, ca⟩) ∨
    (∃ m, w.HasCollectedData = true ∧ w.containerProcessCollectedDataErr = none ∧
      w.NewImageBuilderErr = some m ∧
      finishBuild w client loc tag rm io ov ca t =
        ⟨t ++ [Event.FinishMonitoring, Event.ShutdownContainer, Event.HasCollectedData,
          Event.ContainerProcessCollectedData,
          Event.NewImageBuilder client (if tag = "" then w.SlimImageRepo else tag) w.ImageInfo
            loc io ov], WarnOn w.ShutdownContainerErr, Outcome.fatal m, ca⟩) ∨
    (∃ m, w.HasCollectedData = true ∧ w.containerProcessCollectedDataErr = none ∧
      w.NewImageBuilderErr = none ∧ w.BuildErr = some m ∧
      finishBuild w client loc tag rm io ov ca t =
        ⟨t ++ [Event.FinishMonitoring, Event.ShutdownContainer, Event.HasCollectedData,
          Event.ContainerProcessCollectedData,
          Event.NewImageBuilder client (if tag = "" then w.SlimImageRepo else tag) w.ImageInfo
            loc io ov, Event.Build], WarnOn w.ShutdownContainerErr, Outcome.fatal m, ca⟩) ∨
    (w.HasCollectedData = true ∧ w.containerProcessCollectedDataErr = none ∧
      w.NewImageBuilderErr = none ∧ w.BuildErr = none ∧ rm = true ∧
      finishBuild w client loc tag rm io ov ca t =
        ⟨t ++ [Event.FinishMonitoring, Event.ShutdownContainer, Event.HasCollectedData,
          Event.ContainerProcessCollectedData,
          Event.NewImageBuilder client (if tag = "" then w.SlimImageRepo else tag) w.ImageInfo
            loc io ov, Event.Build, Event.RemoveArtifacts loc],
          WarnOn w.ShutdownContainerErr ++ WarnOn w.RemoveArtifactsErr, Outcome.success, ca⟩) ∨
    (w.HasCollectedData = true ∧ w.containerProcessCollectedDataErr = none ∧
      w.NewImageBuilderErr = none ∧ w.BuildErr = none ∧ rm = false ∧
      finishBuild w client loc tag rm io ov ca t =
        ⟨t ++ [Event.FinishMonitoring, Event.ShutdownContainer, Event.HasCollectedData,
          Event.ContainerProcessCollectedData,
          Event.NewImageBuilder client (if tag = "" then w.SlimImageRepo else tag) w.ImageInfo
            loc io ov, Event.Build], WarnOn w.ShutdownContainerErr, Outcome.success, ca⟩) := by
  rcases h1 : w.HasCollectedData with _ | _
  · simp [finishBuild, h1]
  rcases h2 : w.containerProcessCollectedDataErr with _ | m
  swap
  · simp [finishBuild, FailOn, h1, h2]
  rcases h3 : w.NewImageBuilderErr with _ | m
  swap
  · simp [finishBuild, FailOn, h1, h2, h3]
  rcases h4 : w.BuildErr with _ | m
  swap
  · simp [finishBuild, FailOn, h1, h2, h3, h4]
  cases rm <;> simp [finishBuild, FailOn, h1, h2, h3, h4]

/-- Lines 118–162 after a trace `t`: the events, warnings and outcome are
among those listed by `finished`. -/
theorem finishBuild_finished (w : World) (q : BuildRequest) (t : List Event)
    (ca : ContinueAfter) :
    ∃ tail warns o, finished w q tail warns o ∧
      finishBuild w (q.client w) (q.artifactLocation w) q.customImageTag q.doRmFileArtifacts
        q.imageOverrides q.overrides ca t = ⟨t ++ tail, warns, o, ca⟩ := by
  rcases finishBuild_cases w (q.client w) (q.artifactLocation w) q.customImageTag
    q.doRmFileArtifacts q.imageOverrides q.overrides ca t with
    ⟨h1, hf⟩ | ⟨m, h1, h2, hf⟩ | ⟨m, h1, h2, h3, hf⟩ | ⟨m, h1, h2, h3, h4, hf⟩ |
    ⟨h1, h2, h3, h4, h5, hf⟩ | ⟨h1, h2, h3, h4, h5, hf⟩ <;>
  refine ⟨_, _, _, ?_, hf⟩ <;>
  simp [finished, BuildRequest.newImageBuilder, BuildRequest.client,
    BuildRequest.artifactLocation, *]

/-- The `switch` followed by the finishing lines, after a trace `t`: the run
ends in the `switch` or goes through the finishing lines. -/
theorem switch_then_finish (w : World) (q : BuildRequest) (t : List Event)
    (ca : ContinueAfter) (r : Result)
    (hr : r = match (continueAfterSwitch w ca).2 with
      | some o => ⟨t ++ (continueAfterSwitch w ca).1, [], o, ca⟩
      | none =>
        finishBuild w (q.client w) (q.artifactLocation w) q.customImageTag q.doRmFileArtifacts
          q.imageOverrides q.overrides ca (t ++ (continueAfterSwitch w ca).1)) :
    (∃ sw o, halted w ca sw o ∧ r = ⟨t ++ sw, [], o, ca⟩) ∨
    (∃ sw tail warns o, releasedBy w ca sw ∧ finished w q tail warns o ∧
      r = ⟨t ++ sw ++ tail, warns, o, ca⟩) := by
  have fin : ∀ sw, releasedBy w ca sw →
      ∃ tail warns o, finished w q tail warns o ∧
        finishBuild w (q.client w) (q.artifactLocation w) q.customImageTag q.doRmFileArtifacts
          q.imageOverrides q.overrides ca (t ++ sw) = ⟨t ++ sw ++ tail, warns, o, ca⟩ := by
    intro sw _
    rcases finishBuild_cases w (q.client w) (q.artifactLocation w) q.customImageTag
      q.doRmFileArtifacts q.imageOverrides q.overrides ca (t ++ sw) with
      ⟨h1, hf⟩ | ⟨m, h1, h2, hf⟩ | ⟨m, h1, h2, h3, hf⟩ | ⟨m, h1, h2, h3, h4, hf⟩ |
      ⟨h1, h2, h3, h4, h5, hf⟩ | ⟨h1, h2, h3, h4, h5, hf⟩ <;>
    refine ⟨_, _, _, ?_, hf⟩ <;>
    simp [finished, BuildRequest.newImageBuilder, BuildRequest.client,
      BuildRequest.artifactLocation, *]
  rcases switch_cases w ca with ⟨h1, h2, hsw⟩ | ⟨h1, h2, hsw⟩ | ⟨h1, h2, hsw⟩ |
    ⟨h1, h2, hsw⟩ | ⟨h1, hsw⟩ | ⟨h1, h2, hsw⟩ | ⟨h1, h2, hsw⟩ | ⟨h1, h2, h3, h4, hsw⟩ <;>
  rw [hsw] at hr <;> dsimp only at hr
  · have hrel : releasedBy w ca [Event.enterReadLine, Event.released] := by
      simp [releasedBy, h1, h2]
    obtain ⟨tail, warns, o, hfin, hf⟩ := fin _ hrel
    exact Or.inr ⟨_, tail, warns, o, hrel, hfin, hr.trans hf⟩
  · exact Or.inl ⟨_, _, by simp [halted, h1, h2], hr⟩
  · have hrel : releasedBy w ca [Event.signalRecv ca.ContinueChan, Event.released] := by
      simp [releasedBy, h1, h2]
    obtain ⟨tail, warns, o, hfin, hf⟩ := fin _ hrel
    exact Or.inr ⟨_, tail, warns, o, hrel, hfin, hr.trans hf⟩
  · exact Or.inl ⟨_, _, by simp [halted, h1, h2], hr⟩
  · have hrel : releasedBy w ca
        [Event.timeoutAfter (secondsTimes ca.Timeout), Event.released] := by
      simp [releasedBy, h1]
    obtain ⟨tail, warns, o, hfin, hf⟩ := fin _ hrel
    exact Or.inr ⟨_, tail, warns, o, hrel, hfin, hr.trans hf⟩
  · have hrel : releasedBy w ca [Event.probeRecv ca.ContinueChan, Event.released] := by
      simp [releasedBy, h1, h2]
    obtain ⟨tail, warns, o, hfin, hf⟩ := fin _ hrel
    exact Or.inr ⟨_, tail, warns, o, hrel, hfin, hr.trans hf⟩
  · exact Or.inl ⟨_, _, by simp [halted, h1, h2], hr⟩
  · exact Or.inl ⟨_, _, by simp [halted, h1, h2, h3, h4], hr⟩

/-- Every run has one of these shapes: it ends in lines 45–82, it ends at the
construction of the probe, it ends in the `switch`, or it goes through the
finishing lines. -/
theorem run_shape (w : World) (q : BuildRequest) :
    (∃ m, w.imageNewInspectorErr = some m ∧
      run w q = ⟨(launchTrace w q).take 1, [], Outcome.fatal m, q.continueAfter⟩) ∨
    (w.imageNewInspectorErr = none ∧ w.NoImage = true ∧
      run w q = ⟨(launchTrace w q).take 2, [], Outcome.success, q.continueAfter⟩) ∨
    (∃ m, w.imageNewInspectorErr = none ∧ w.NoImage = false ∧ w.InspectErr = some m ∧
      run w q = ⟨(launchTrace w q).take 3, [], Outcome.fatal m, q.continueAfter⟩) ∨
    (∃ m, w.imageNewInspectorErr = none ∧ w.NoImage = false ∧ w.InspectErr = none ∧
      w.imageProcessCollectedDataErr = some m ∧
      run w q = ⟨(launchTrace w q).take 5, [], Outcome.fatal m, q.continueAfter⟩) ∨
    (∃ m, w.imageNewInspectorErr = none ∧ w.NoImage = false ∧ w.InspectErr = none ∧
      w.imageProcessCollectedDataErr = none ∧ w.containerNewInspectorErr = some m ∧
      run w q = ⟨(launchTrace w q).take 6, [], Outcome.fatal m, q.continueAfter⟩) ∨
    (∃ m, w.imageNewInspectorErr = none ∧ w.NoImage = false ∧ w.InspectErr = none ∧
      w.imageProcessCollectedDataErr = none ∧ w.containerNewInspectorErr = none ∧
      w.RunContainerErr = some m ∧
      run w q = ⟨launchTrace w q, [], Outcome.fatal m, q.continueAfter⟩) ∨
    (∃ m, w.launches ∧ q.probing ∧ w.NewCustomProbeErr = some m ∧
      run w q = ⟨launchTrace w q ++ [Event.NewCustomProbe q.httpProbeCmds], [],
        Outcome.fatal m, q.continueAfter⟩) ∨
    (∃ evs ca sw o, w.launches ∧ armed w q evs ca ∧ halted w ca sw o ∧
      run w q = ⟨launchTrace w q ++ evs ++ sw, [], o, ca⟩) ∨
    (∃ evs ca sw tail warns o, w.launches ∧ armed w q evs ca ∧ releasedBy w ca sw ∧
      finished w q tail warns o ∧
      run w q = ⟨launchTrace w q ++ evs ++ sw ++ tail, warns, o, ca⟩) := by
  rcases launch_cases w q with h | h | h | h | h | h | hl
  · left; exact h
  · right; left; exact h
  · right; right; left; exact h
  · right; right; right; left; exact h
  · right; right; right; right; left; exact h
  · right; right; right; right; right; left; exact h
  iterate 6 right
  rw [run_of_launches w q hl]
  rcases startProbe_cases w q.doHttpProbe q.httpProbeCmds q.continueAfter with
    ⟨m, hp, he, hpr⟩ | ⟨hp, he, hpr⟩ | ⟨hb, hm, hpr⟩
  · exact Or.inl ⟨m, hl, hp, he, by rw [hpr]⟩
  · rw [hpr]
    have harm : armed w q [Event.NewCustomProbe q.httpProbeCmds, Event.ProbeStart,
        Event.ProbeDoneChan] ⟨q.continueAfter.Mode, q.continueAfter.Timeout, w.DoneChan⟩ :=
      Or.inl ⟨hp, he, rfl, rfl⟩
    rcases switch_then_finish w q _ _ _ rfl with ⟨sw, o, h, hr⟩ | ⟨sw, tail, warns, o, h, hf, hr⟩
    · exact Or.inr (Or.inl ⟨_, _, sw, o, hl, harm, h, hr⟩)
    · exact Or.inr (Or.inr ⟨_, _, sw, tail, warns, o, hl, harm, h, hf, hr⟩)
  · rw [hpr]
    have harm : armed w q [] q.continueAfter := Or.inr ⟨hb, hm, rfl, rfl⟩
    rcases switch_then_finish w q _ _ _ rfl with ⟨sw, o, h, hr⟩ | ⟨sw, tail, warns, o, h, hf, hr⟩
    · exact Or.inr (Or.inl ⟨_, _, sw, o, hl, harm, h, hr⟩)
    · exact Or.inr (Or.inr ⟨_, _, sw, tail, warns, o, hl, harm, h, hf, hr⟩)

/-- The calls of a run, shape by shape, with the answers of the world that
lead to each shape and the outcome. -/
theorem calls_shape (w : World) (q : BuildRequest) :
    (∃ m, w.imageNewInspectorErr = some m ∧
      calls (run w q).trace = launchCalls.take 1 ∧ (run w q).outcome = Outcome.fatal m) ∨
    (w.imageNewInspectorErr = none ∧ w.NoImage = true ∧
      calls (run w q).trace = launchCalls.take 2 ∧ (run w q).outcome = Outcome.success) ∨
    (∃ m, w.imageNewInspectorErr = none ∧ w.NoImage = false ∧ w.InspectErr = some m ∧
      calls (run w q).trace = launchCalls.take 3 ∧ (run w q).outcome = Outcome.fatal m) ∨
    (∃ m, w.imageNewInspectorErr = none ∧ w.NoImage = false ∧ w.InspectErr = none ∧
      w.imageProcessCollectedDataErr = some m ∧
      calls (run w q).trace = launchCalls.take 5 ∧ (run w q).outcome = Outcome.fatal m) ∨
    (∃ m, w.imageNewInspectorErr = none ∧ w.NoImage = false ∧ w.InspectErr = none ∧
      w.imageProcessCollectedDataErr = none ∧ w.containerNewInspectorErr = some m ∧
      calls (run w q).trace = launchCalls.take 6 ∧ (run w q).outcome = Outcome.fatal m) ∨
    (∃ m, w.imageNewInspectorErr = none ∧ w.NoImage = false ∧ w.InspectErr = none ∧
      w.imageProcessCollectedDataErr = none ∧ w.containerNewInspectorErr = none ∧
      w.RunContainerErr = some m ∧
      calls (run w q).trace = launchCalls ∧ (run w q).outcome = Outcome.fatal m) ∨
    (∃ m, w.launches ∧ q.probing ∧ w.NewCustomProbeErr = some m ∧
      calls (run w q).trace = launchCalls ++ [Call.NewCustomProbe] ∧
      (run w q).outcome = Outcome.fatal m) ∨
    (∃ pc, w.launches ∧
      ((q.probing ∧ w.NewCustomProbeErr = none ∧ pc = probeCalls) ∨ (¬ q.probing ∧ pc = [])) ∧
      ((q.continueAfter.Mode ∈ waitModes ∧
          calls (run w q).trace = launchCalls ++ pc ++ [Call.wait] ∧
          (run w q).outcome = Outcome.blocked) ∨
       (q.continueAfter.Mode ∉ waitModes ∧
          calls (run w q).trace = launchCalls ++ pc ++ [Call.Fail] ∧
          (run w q).outcome = Outcome.fatal "unknown continue-after mode") ∨
       (∃ fc, q.continueAfter.Mode ∈ waitModes ∧
         calls (run w q).trace = launchCalls ++ pc ++ harvestCalls ++ fc ∧
         ((w.HasCollectedData = false ∧ fc = [Call.ShowFatImageDockerInstructions] ∧
            (run w q).outcome = Outcome.success ∧
            (run w q).warnings = WarnOn w.ShutdownContainerErr) ∨
          (∃ m, w.HasCollectedData = true ∧ w.containerProcessCollectedDataErr = some m ∧
            fc = [Call.ContainerProcessCollectedData] ∧
            (run w q).outcome = Outcome.fatal m ∧
            (run w q).warnings = WarnOn w.ShutdownContainerErr) ∨
          (∃ m, w.HasCollectedData = true ∧ w.containerProcessCollectedDataErr = none ∧
            w.NewImageBuilderErr = some m ∧
            fc = [Call.ContainerProcessCollectedData, Call.NewImageBuilder] ∧
            (run w q).outcome = Outcome.fatal m ∧
            (run w q).warnings = WarnOn w.ShutdownContainerErr) ∨
          (∃ m, w.HasCollectedData = true ∧ w.containerProcessCollectedDataErr = none ∧
            w.NewImageBuilderErr = none ∧ w.BuildErr = some m ∧
            fc = [Call.ContainerProcessCollectedData, Call.NewImageBuilder, Call.Build] ∧
            (run w q).outcome = Outcome.fatal m ∧
            (run w q).warnings = WarnOn w.ShutdownContainerErr) ∨
          (w.HasCollectedData = true ∧ w.containerProcessCollectedDataErr = none ∧
            w.NewImageBuilderErr = none ∧ w.BuildErr = none ∧ q.doRmFileArtifacts = true ∧
            fc = [Call.ContainerProcessCollectedData, Call.NewImageBuilder, Call.Build,
              Call.RemoveArtifacts] ∧
            (run w q).outcome = Outcome.success ∧
            (run w q).warnings = WarnOn w.ShutdownContainerErr ++ WarnOn w.RemoveArtifactsErr) ∨
          (w.HasCollectedData = true ∧ w.containerProcessCollectedDataErr = none ∧
            w.NewImageBuilderErr = none ∧ w.BuildErr = none ∧ q.doRmFileArtifacts = false ∧
            fc = [Call.ContainerProcessCollectedData, Call.NewImageBuilder, Call.Build] ∧
            (run w q).outcome = Outcome.success ∧
            (run w q).warnings = WarnOn w.ShutdownContainerErr))))) := by
  have hap : ∀ a b : List Event, calls (a ++ b) = calls a ++ calls b := fun a b => by
    simp [calls]
  have hL : calls (launchTrace w q) = launchCalls := rfl
  have harm : ∀ evs ca, armed w q evs ca →
      (q.probing ∧ w.NewCustomProbeErr = none ∧ calls evs = probeCalls) ∨
      (¬ q.probing ∧ calls evs = []) := by
    rintro evs ca (⟨hp, he, rfl, -⟩ | ⟨hb, hm, rfl, -⟩)
    · exact Or.inl ⟨hp, he, rfl⟩
    · exact Or.inr ⟨by simp [BuildRequest.probing, hb, hm], rfl⟩
  have hmode : ∀ evs ca, armed w q evs ca → ca.Mode = q.continueAfter.Mode := by
    rintro evs ca (⟨-, -, -, rfl⟩ | ⟨-, -, -, rfl⟩) <;> rfl
  rcases run_shape w q with ⟨m, h1, hr⟩ | ⟨h1, h2, hr⟩ | ⟨m, h1, h2, h3, hr⟩ |
    ⟨m, h1, h2, h3, h4, hr⟩ | ⟨m, h1, h2, h3, h4, h5, hr⟩ | ⟨m, h1, h2, h3, h4, h5, h6, hr⟩ |
    ⟨m, hl, hp, he, hr⟩ | ⟨evs, ca, sw, o, hl, ha, hh, hr⟩ |
    ⟨evs, ca, sw, tail, warns, o, hl, ha, hrel, hf, hr⟩
  · exact Or.inl ⟨m, h1, by rw [hr]; rfl, by rw [hr]⟩
  · exact Or.inr (Or.inl ⟨h1, h2, by rw [hr]; rfl, by rw [hr]⟩)
  · exact Or.inr (Or.inr (Or.inl ⟨m, h1, h2, h3, by rw [hr]; rfl, by rw [hr]⟩))
  · exact Or.inr (Or.inr (Or.inr (Or.inl ⟨m, h1, h2, h3, h4, by rw [hr]; rfl, by rw [hr]⟩)))
  · exact Or.inr (Or.inr (Or.inr (Or.inr (Or.inl
      ⟨m, h1, h2, h3, h4, h5, by rw [hr]; rfl, by rw [hr]⟩))))
  · exact Or.inr (Or.inr (Or.inr (Or.inr (Or.inr (Or.inl
      ⟨m, h1, h2, h3, h4, h5, h6, by rw [hr]; rfl, by rw [hr]⟩)))))
  · exact Or.inr (Or.inr (Or.inr (Or.inr (Or.inr (Or.inr (Or.inl
      ⟨m, hl, hp, he, by rw [hr]; rfl, by rw [hr]⟩))))))
  · refine Or.inr (Or.inr (Or.inr (Or.inr (Or.inr (Or.inr (Or.inr
      ⟨calls evs, hl, harm evs ca ha, ?_⟩))))))
    rw [hr]
    simp only [hap, hL]
    have hca := hmode evs ca ha
    rcases hh with ⟨k, -, rfl, rfl⟩ | ⟨k, -, rfl, rfl⟩ | ⟨k, -, rfl, rfl⟩ |
      ⟨k1, k2, k3, k4, rfl, rfl⟩
    · exact Or.inl ⟨by simp [waitModes, ← hca, k], rfl, rfl⟩
    · exact Or.inl ⟨by simp [waitModes, ← hca, k], rfl, rfl⟩
    · exact Or.inl ⟨by simp [waitModes, ← hca, k], rfl, rfl⟩
    · exact Or.inr (Or.inl ⟨by simp [waitModes, ← hca, k1, k2, k3, k4], rfl, rfl⟩)
  · refine Or.inr (Or.inr (Or.inr (Or.inr (Or.inr (Or.inr (Or.inr
      ⟨calls evs, hl, harm evs ca ha, Or.inr (Or.inr ?_)⟩))))))
    rw [hr]
    simp only [hap, hL]
    have hsw : calls sw = [Call.wait, Call.released] := by
      rcases hrel with ⟨-, -, rfl⟩ | ⟨-, -, rfl⟩ | ⟨-, rfl⟩ | ⟨-, -, rfl⟩ <;> rfl
    have hm : q.continueAfter.Mode ∈ waitModes := by
      rw [← hmode evs ca ha]
      rcases hrel with ⟨k, -, -⟩ | ⟨k, -, -⟩ | ⟨k, -⟩ | ⟨k, -, -⟩ <;> simp [waitModes, k]
    rw [hsw]
    rcases hf with ⟨g1, rfl, rfl, rfl⟩ | ⟨m, g1, g2, rfl, rfl, rfl⟩ |
      ⟨m, g1, g2, g3, rfl, rfl, rfl⟩ | ⟨m, g1, g2, g3, g4, rfl, rfl, rfl⟩ |
      ⟨g1, g2, g3, g4, g5, rfl, rfl, rfl⟩ | ⟨g1, g2, g3, g4, g5, rfl, rfl, rfl⟩
    · exact ⟨_, hm, by simp [harvestCalls, calls, Event.call], Or.inl ⟨g1, rfl, rfl, rfl⟩⟩
    · exact ⟨_, hm, by simp [harvestCalls, calls, Event.call],
        Or.inr (Or.inl ⟨m, g1, g2, rfl, rfl, rfl⟩)⟩
    · exact ⟨_, hm, by simp [harvestCalls, calls, Event.call, BuildRequest.newImageBuilder],
        Or.inr (Or.inr (Or.inl ⟨m, g1, g2, g3, rfl, rfl, rfl⟩))⟩
    · exact ⟨_, hm, by simp [harvestCalls, calls, Event.call, BuildRequest.newImageBuilder],
        Or.inr (Or.inr (Or.inr (Or.inl ⟨m, g1, g2, g3, g4, rfl, rfl, rfl⟩)))⟩
    · exact ⟨_, hm, by simp [harvestCalls, calls, Event.call, BuildRequest.newImageBuilder],
        Or.inr (Or.inr (Or.inr (Or.inr (Or.inl ⟨g1, g2, g3, g4, g5, rfl, rfl, rfl⟩))))⟩
    · exact ⟨_, hm, by simp [harvestCalls, calls, Event.call, BuildRequest.newImageBuilder],
        Or.inr (Or.inr (Or.inr (Or.inr (Or.inr ⟨g1, g2, g3, g4, g5, rfl, rfl, rfl⟩))))⟩

/-- The run gets to the `switch` exactly when its trace has a wait or the call
of `utils.Fail`. -/
theorem reachesWait_iff (w : World) (q : BuildRequest) :
    reachesWait w q ↔
      Call.wait ∈ calls (run w q).trace ∨ Call.Fail ∈ calls (run w q).trace := by
  unfold reachesWait World.launches
  rcases calls_shape w q with ⟨m', h1, hr, ho⟩ | ⟨h1, h2, hr, ho⟩ | ⟨m', h1, h2, h3, hr, ho⟩ |
    ⟨m', h1, h2, h3, h4, hr, ho⟩ | ⟨m', h1, h2, h3, h4, h5, hr, ho⟩ |
    ⟨m', h1, h2, h3, h4, h5, h6, hr, ho⟩ | ⟨m', ⟨h1, h2, h3, h4, h5, h6⟩, hp, he, hr, ho⟩ |
    ⟨pc, ⟨h1, h2, h3, h4, h5, h6⟩, ⟨hp, he, rfl⟩ | ⟨hp, rfl⟩, ⟨hm, hr, ho⟩ | ⟨hm, hr, ho⟩ |
      ⟨fc, hm, hr, ⟨g1, rfl, ho, hw⟩ | ⟨m', g1, g2, rfl, ho, hw⟩ |
        ⟨m', g1, g2, g3, rfl, ho, hw⟩ | ⟨m', g1, g2, g3, g4, rfl, ho, hw⟩ |
        ⟨g1, g2, g3, g4, g5, rfl, ho, hw⟩ | ⟨g1, g2, g3, g4, g5, rfl, ho, hw⟩⟩⟩
  all_goals rw [hr]
  all_goals clear hr ho
  all_goals first
    | (apply iff_of_true _ (by decide); simp_all)
    | (apply iff_of_false _ (by decide); simp_all)

/-- The run gets past `RunContainer` exactly when `RunContainer` is called
and returns no error. -/
theorem launches_iff (w : World) (q : BuildRequest) :
    w.launches ↔ Call.RunContainer ∈ calls (run w q).trace ∧ w.RunContainerErr = none := by
  unfold World.launches
  rcases calls_shape w q with ⟨m', h1, hr, ho⟩ | ⟨h1, h2, hr, ho⟩ | ⟨m', h1, h2, h3, hr, ho⟩ |
    ⟨m', h1, h2, h3, h4, hr, ho⟩ | ⟨m', h1, h2, h3, h4, h5, hr, ho⟩ |
    ⟨m', h1, h2, h3, h4, h5, h6, hr, ho⟩ | ⟨m', ⟨h1, h2, h3, h4, h5, h6⟩, hp, he, hr, ho⟩ |
    ⟨pc, ⟨h1, h2, h3, h4, h5, h6⟩, ⟨hp, he, rfl⟩ | ⟨hp, rfl⟩, ⟨hm, hr, ho⟩ | ⟨hm, hr, ho⟩ |
      ⟨fc, hm, hr, ⟨g1, rfl, ho, hw⟩ | ⟨m', g1, g2, rfl, ho, hw⟩ |
        ⟨m', g1, g2, g3, rfl, ho, hw⟩ | ⟨m', g1, g2, g3, g4, rfl, ho, hw⟩ |
        ⟨g1, g2, g3, g4, g5, rfl, ho, hw⟩ | ⟨g1, g2, g3, g4, g5, rfl, ho, hw⟩⟩⟩
  all_goals rw [hr]
  all_goals clear hr ho
  all_goals first
    | (exact iff_of_true ⟨h1, h2, h3, h4, h5, h6⟩ ⟨by decide, h6⟩)
    | (apply iff_of_false <;> simp_all [launchCalls])

/-! ### The events of each stage -/

/-- The calls of the launch trace. -/
theorem launchTrace_calls {w : World} {q : BuildRequest} {e : Event}
    (h : e ∈ launchTrace w q) : e.call ∈ launchCalls :=
  call_mem_calls h

/-- The calls of lines 86–95. -/
theorem armed_calls {w : World} {q : BuildRequest} {evs : List Event} {ca : ContinueAfter}
    (h : armed w q evs ca) {e : Event} (he : e ∈ evs) : e.call ∈ probeCalls := by
  rcases h with ⟨-, -, rfl, -⟩ | ⟨-, -, rfl, -⟩
  · exact call_mem_calls he
  · simp at he

/-- The calls of a `switch` that ends the run. -/
theorem halted_calls {w : World} {ca : ContinueAfter} {sw : List Event} {o : Outcome}
    (h : halted w ca sw o) {e : Event} (he : e ∈ sw) : e.call ∈ [Call.wait, Call.Fail] := by
  rcases h with ⟨-, -, rfl, -⟩ | ⟨-, -, rfl, -⟩ | ⟨-, -, rfl, -⟩ | ⟨-, -, -, -, rfl, -⟩ <;>
  · simp only [List.mem_singleton] at he
    subst he
    simp [Event.call]

/-- The calls of a `switch` whose wait is released. -/
theorem released_calls {w : World} {ca : ContinueAfter} {sw : List Event}
    (h : releasedBy w ca sw) {e : Event} (he : e ∈ sw) :
    e.call ∈ [Call.wait, Call.released] := by
  rcases h with ⟨-, -, rfl⟩ | ⟨-, -, rfl⟩ | ⟨-, rfl⟩ | ⟨-, -, rfl⟩ <;>
  · simp only [List.mem_cons, List.mem_singleton, List.not_mem_nil, or_false] at he
    rcases he with rfl | rfl <;> simp [Event.call]

/-- The calls of lines 118–162. -/
theorem finished_calls {w : World} {q : BuildRequest} {tail : List Event}
    {warns : List String} {o : Outcome} (h : finished w q tail warns o) {e : Event}
    (he : e ∈ tail) : e.call ∈ finishCalls := by
  rcases h with ⟨-, rfl, -, -⟩ | ⟨m, -, -, rfl, -, -⟩ | ⟨m, -, -, -, rfl, -, -⟩ |
    ⟨m, -, -, -, -, rfl, -, -⟩ | ⟨-, -, -, -, -, rfl, -, -⟩ | ⟨-, -, -, -, -, rfl, -, -⟩ <;>
  · have hc := call_mem_calls he
    generalize e.call = c at hc
    simp only [calls, List.map_cons, List.map_nil, Event.call,
      BuildRequest.newImageBuilder] at hc
    revert c
    decide

/-- Lines 118–162 do not end blocked, and leave no wait in the trace. -/
theorem finished_outcome {w : World} {q : BuildRequest} {tail : List Event}
    {warns : List String} {o : Outcome} (h : finished w q tail warns o) :
    o ≠ Outcome.blocked ∧ branches tail = [] := by
  rcases h with ⟨-, rfl, -, rfl⟩ | ⟨m, -, -, rfl, -, rfl⟩ | ⟨m, -, -, -, rfl, -, rfl⟩ |
    ⟨m, -, -, -, -, rfl, -, rfl⟩ | ⟨-, -, -, -, -, rfl, -, rfl⟩ |
    ⟨-, -, -, -, -, rfl, -, rfl⟩ <;>
  exact ⟨by simp, rfl⟩

/-- What the `switch` leaves in the trace, mode by mode, whether the wait is
released or not. -/
theorem switch_events {w : World} {ca : ContinueAfter} {sw : List Event}
    (h : (∃ o, halted w ca sw o) ∨ releasedBy w ca sw) :
    (ca.Mode = "enter" → branches sw = [Branch.enter]) ∧
    (ca.Mode = "signal" →
      branches sw = [Branch.signal] ∧ Event.signalRecv ca.ContinueChan ∈ sw) ∧
    (ca.Mode = "timeout" →
      sw = [Event.timeoutAfter (secondsTimes ca.Timeout), Event.released]) ∧
    (ca.Mode = "probe" →
      branches sw = [Branch.probe] ∧ Event.probeRecv ca.ContinueChan ∈ sw) ∧
    (Branch.probe ∈ branches sw → ca.Mode = "probe") ∧
    (ca.Mode ∉ waitModes → branches sw = []) := by
  rcases h with ⟨o, ⟨k, -, rfl, -⟩ | ⟨k, -, rfl, -⟩ | ⟨k, -, rfl, -⟩ |
      ⟨k1, k2, k3, k4, rfl, -⟩⟩ |
    ⟨k, -, rfl⟩ | ⟨k, -, rfl⟩ | ⟨k, rfl⟩ | ⟨k, -, rfl⟩ <;>
  simp_all [branches, Event.branch, waitModes]

/-- A run that gets to the `switch` ends in it or goes through the finishing
lines. -/
theorem run_of_reachesWait (w : World) (q : BuildRequest) (h : reachesWait w q) :
    ∃ evs ca, armed w q evs ca ∧
      ((∃ sw o, halted w ca sw o ∧ run w q = ⟨launchTrace w q ++ evs ++ sw, [], o, ca⟩) ∨
       (∃ sw tail warns o, releasedBy w ca sw ∧ finished w q tail warns o ∧
          run w q = ⟨launchTrace w q ++ evs ++ sw ++ tail, warns, o, ca⟩)) := by
  obtain ⟨⟨k1, k2, k3, k4, k5, k6⟩, kp⟩ := h
  rcases run_shape w q with ⟨m, h1, -⟩ | ⟨-, h2, -⟩ | ⟨m, -, -, h3, -⟩ |
    ⟨m, -, -, -, h4, -⟩ | ⟨m, -, -, -, -, h5, -⟩ | ⟨m, -, -, -, -, -, h6, -⟩ |
    ⟨m, -, hp, he, -⟩ | ⟨evs, ca, sw, o, -, ha, hh, hr⟩ |
    ⟨evs, ca, sw, tail, warns, o, -, ha, hrel, hf, hr⟩
  · rw [k1] at h1; exact Option.noConfusion h1
  · rw [k2] at h2; exact Bool.noConfusion h2
  · rw [k3] at h3; exact Option.noConfusion h3
  · rw [k4] at h4; exact Option.noConfusion h4
  · rw [k5] at h5; exact Option.noConfusion h5
  · rw [k6] at h6; exact Option.noConfusion h6
  · rw [kp hp] at he; exact Option.noConfusion he
  · exact ⟨evs, ca, ha, Or.inl ⟨sw, o, hh, hr⟩⟩
  · exact ⟨evs, ca, ha, Or.inr ⟨sw, tail, warns, o, hrel, hf, hr⟩⟩

/-- A run that gets to the `switch`: the launch trace, the events of lines
86–95, the events of the `switch` and, when the wait is released, the events
of the finishing lines. -/
theorem run_wait_shape (w : World) (q : BuildRequest) (h : reachesWait w q) :
    ∃ evs ca sw rest, armed w q evs ca ∧
      ((∃ o, halted w ca sw o) ∨ releasedBy w ca sw) ∧
      (run w q).trace = launchTrace w q ++ evs ++ sw ++ rest ∧
      (run w q).continueAfter = ca ∧ branches rest = [] ∧
      (∀ e ∈ rest, e.call ∈ finishCalls) ∧
      (releasedBy w ca sw → (run w q).outcome ≠ Outcome.blocked) := by
  obtain ⟨evs, ca, ha, ⟨sw, o, hh, hr⟩ | ⟨sw, tail, warns, o, hrel, hf, hr⟩⟩ :=
    run_of_reachesWait w q h
  · refine ⟨evs, ca, sw, [], ha, Or.inl ⟨o, hh⟩, by rw [hr]; simp, by rw [hr], rfl,
      fun e he => by simp at he, fun hrel => ?_⟩
    exfalso
    rcases hh with ⟨k, k', rfl, -⟩ | ⟨k, k', rfl, -⟩ | ⟨k, k', rfl, -⟩ |
        ⟨k1, k2, k3, k4, rfl, -⟩ <;>
    rcases hrel with ⟨j, j', hs⟩ | ⟨j, j', hs⟩ | ⟨j, hs⟩ | ⟨j, j', hs⟩ <;>
    simp at hs
  · exact ⟨evs, ca, sw, tail, ha, Or.inr hrel, by rw [hr], by rw [hr],
      (finished_outcome hf).2, fun e he => finished_calls hf he,
      fun _ => by rw [hr]; exact (finished_outcome hf).1⟩

/-- In a run that gets to the `switch`, an event that neither the launch nor
the finishing lines can produce comes from lines 86–95 or from the
`switch`. -/
theorem mem_middle {w : World} {q : BuildRequest} {evs sw rest : List Event} {e : Event}
    (hrest : ∀ x ∈ rest, x.call ∈ finishCalls)
    (hc : e.call ∉ launchCalls ++ finishCalls) :
    e ∈ launchTrace w q ++ evs ++ sw ++ rest ↔ e ∈ evs ∨ e ∈ sw := by
  simp only [List.mem_append]
  constructor
  · rintro (((h | h) | h) | h)
    · exact absurd (List.mem_append_left _ (launchTrace_calls h)) hc
    · exact Or.inl h
    · exact Or.inr h
    · exact absurd (List.mem_append_right _ (hrest e h)) hc
  · rintro (h | h)
    · exact Or.inl (Or.inl (Or.inr h))
    · exact Or.inl (Or.inr h)

/-- The wait branches of a run that gets to the `switch` are those of the
`switch`. -/
theorem branches_run {w : World} {q : BuildRequest} {evs sw rest : List Event}
    {ca : ContinueAfter} (ha : armed w q evs ca) (hrest : branches rest = []) :
    branches (launchTrace w q ++ evs ++ sw ++ rest) = branches sw := by
  have h1 : branches (launchTrace w q) = [] := rfl
  have h2 : branches evs = [] := by
    rcases ha with ⟨-, -, rfl, -⟩ | ⟨-, -, rfl, -⟩ <;> rfl
  simp [branches_append, h1, h2, hrest]

/-- The finishing lines make the same calls and end the same way whatever
`ShutdownContainer` and `RemoveArtifacts` return. -/
theorem finishBuild_withWarnErrors (w : World) (e1 e2 : Error) (client : Client)
    (loc tag : String) (rm : Bool) (io : List (String × Bool)) (ov : ContainerOverrides)
    (ca : ContinueAfter) (t : List Event) :
    (finishBuild (w.withWarnErrors e1 e2) client loc tag rm io ov ca t).trace =
      (finishBuild w client loc tag rm io ov ca t).trace ∧
    (finishBuild (w.withWarnErrors e1 e2) client loc tag rm io ov ca t).outcome =
      (finishBuild w client loc tag rm io ov ca t).outcome ∧
    (finishBuild (w.withWarnErrors e1 e2) client loc tag rm io ov ca t).continueAfter =
      (finishBuild w client loc tag rm io ov ca t).continueAfter := by
  rcases h1 : w.HasCollectedData with _ | _
  · simp [finishBuild, World.withWarnErrors, h1]
  rcases h2 : w.containerProcessCollectedDataErr with _ | m
  swap
  · simp [finishBuild, FailOn, World.withWarnErrors, h1, h2]
  rcases h3 : w.NewImageBuilderErr with _ | m
  swap
  · simp [finishBuild, FailOn, World.withWarnErrors, h1, h2, h3]
  rcases h4 : w.BuildErr with _ | m
  swap
  · simp [finishBuild, FailOn, World.withWarnErrors, h1, h2, h3, h4]
  cases rm <;> simp [finishBuild, FailOn, World.withWarnErrors, h1, h2, h3, h4]

/-- A run makes the same calls and ends the same way whatever
`ShutdownContainer` and `RemoveArtifacts` return. -/
theorem run_withWarnErrors (w : World) (q : BuildRequest) (e1 e2 : Error) :
    (run (w.withWarnErrors e1 e2) q).trace = (run w q).trace ∧
    (run (w.withWarnErrors e1 e2) q).outcome = (run w q).outcome ∧
    (run (w.withWarnErrors e1 e2) q).continueAfter = (run w q).continueAfter := by
  rcases launch_cases w q with ⟨m, h1, hr⟩ | ⟨h1, h2, hr⟩ | ⟨m, h1, h2, h3, hr⟩ |
    ⟨m, h1, h2, h3, h4, hr⟩ | ⟨m, h1, h2, h3, h4, h5, hr⟩ | ⟨m, h1, h2, h3, h4, h5, h6, hr⟩ |
    hl
  · rw [hr]; simp [run, OnBuild, FailOn, World.withWarnErrors, launchTrace, h1]
  · rw [hr]; simp [run, OnBuild, FailOn, World.withWarnErrors, launchTrace, h1, h2]
  · rw [hr]; simp [run, OnBuild, FailOn, World.withWarnErrors, launchTrace, h1, h2, h3]
  · rw [hr]; simp [run, OnBuild, FailOn, World.withWarnErrors, launchTrace, h1, h2, h3, h4]
  · rw [hr]
    simp [run, OnBuild, FailOn, World.withWarnErrors, launchTrace, h1, h2, h3, h4, h5]
  · rw [hr]
    simp [run, OnBuild, FailOn, World.withWarnErrors, launchTrace, h1, h2, h3, h4, h5, h6]
  · have hl' : (w.withWarnErrors e1 e2).launches := hl
    rw [run_of_launches w q hl, run_of_launches _ q hl']
    have hs : startProbe (w.withWarnErrors e1 e2) q.doHttpProbe q.httpProbeCmds
        q.continueAfter = startProbe w q.doHttpProbe q.httpProbeCmds q.continueAfter := rfl
    have hc : ∀ ca, continueAfterSwitch (w.withWarnErrors e1 e2) ca =
        continueAfterSwitch w ca := fun _ => rfl
    have ht : launchTrace (w.withWarnErrors e1 e2) q = launchTrace w q := rfl
    have hcl : q.client (w.withWarnErrors e1 e2) = q.client w := rfl
    have hal : q.artifactLocation (w.withWarnErrors e1 e2) = q.artifactLocation w := rfl
    rw [hs, ht, hcl, hal]
    simp only [hc]
    rcases k1 : (startProbe w q.doHttpProbe q.httpProbeCmds q.continueAfter).2.1 with _ | o
    swap
    · exact ⟨rfl, rfl, rfl⟩
    rcases k2 : (continueAfterSwitch w
      (startProbe w q.doHttpProbe q.httpProbeCmds q.continueAfter).2.2).2 with _ | o
    swap
    · exact ⟨rfl, rfl, rfl⟩
    exact finishBuild_withWarnErrors w e1 e2 _ _ _ _ _ _ _ _

/-- The only event of a run that calls `builder.NewImageBuilder` is
`q.newImageBuilder w`, and a run with such an event contains the launch
trace. -/
theorem newImageBuilder_event (w : World) (q : BuildRequest) {e : Event}
    (he : e ∈ (run w q).trace) (hc : e.call = Call.NewImageBuilder) :
    e = q.newImageBuilder w ∧ ∀ x ∈ launchTrace w q, x ∈ (run w q).trace := by
  have nl : ∀ x ∈ launchTrace w q, x.call ≠ Call.NewImageBuilder :=
    fun x hx h => absurd (h ▸ launchTrace_calls hx) (by decide)
  have np : ∀ x : Event, x.call ∈ probeCalls → x.call ≠ Call.NewImageBuilder :=
    fun x hx h => absurd (h ▸ hx) (by decide)
  have nh : ∀ x : Event, x.call ∈ [Call.wait, Call.Fail] → x.call ≠ Call.NewImageBuilder :=
    fun x hx h => absurd (h ▸ hx) (by decide)
  have nr : ∀ x : Event, x.call ∈ [Call.wait, Call.released] → x.call ≠ Call.NewImageBuilder :=
    fun x hx h => absurd (h ▸ hx) (by decide)
  rcases run_shape w q with ⟨m, -, hr⟩ | ⟨-, -, hr⟩ | ⟨m, -, -, -, hr⟩ |
    ⟨m, -, -, -, -, hr⟩ | ⟨m, -, -, -, -, -, hr⟩ | ⟨m, -, -, -, -, -, -, hr⟩ |
    ⟨m, -, -, -, hr⟩ | ⟨evs, ca, sw, o, -, ha, hh, hr⟩ |
    ⟨evs, ca, sw, tail, warns, o, -, ha, hrel, hf, hr⟩
  · rw [hr] at he; exact absurd hc (nl e (List.mem_of_mem_take he))
  · rw [hr] at he; exact absurd hc (nl e (List.mem_of_mem_take he))
  · rw [hr] at he; exact absurd hc (nl e (List.mem_of_mem_take he))
  · rw [hr] at he; exact absurd hc (nl e (List.mem_of_mem_take he))
  · rw [hr] at he; exact absurd hc (nl e (List.mem_of_mem_take he))
  · rw [hr] at he; exact absurd hc (nl e he)
  · rw [hr] at he
    rcases List.mem_append.1 he with h | h
    · exact absurd hc (nl e h)
    · rw [List.mem_singleton.1 h] at hc; cases hc
  · rw [hr] at he
    rcases List.mem_append.1 he with h | h
    · rcases List.mem_append.1 h with h | h
      · exact absurd hc (nl e h)
      · exact absurd hc (np e (armed_calls ha h))
    · exact absurd hc (nh e (halted_calls hh h))
  · rw [hr] at he ⊢
    refine ⟨?_, fun x hx => by simp [hx]⟩
    rcases List.mem_append.1 he with h | h
    · rcases List.mem_append.1 h with h | h
      · rcases List.mem_append.1 h with h | h
        · exact absurd hc (nl e h)
        · exact absurd hc (np e (armed_calls ha h))
      · exact absurd hc (nr e (released_calls hrel h))
    · rcases hf with ⟨-, rfl, -, -⟩ | ⟨m, -, -, rfl, -, -⟩ | ⟨m, -, -, -, rfl, -, -⟩ |
        ⟨m, -, -, -, -, rfl, -, -⟩ | ⟨-, -, -, -, -, rfl, -, -⟩ | ⟨-, -, -, -, -, rfl, -, -⟩ <;>
      · simp only [List.mem_cons, List.mem_singleton, List.not_mem_nil, or_false] at h
        casesm* _ ∨ _ <;> subst_vars <;> first | rfl | cases hc

/-! ### The claims -/

/-- Counterexample to C1 as stated: probing is requested with mode `enter`, the
run gets to the wait, and the wait that executes is the `enter` branch (a
line read from standard input); the mode is still `enter` afterwards and no
probe branch executes. -/
theorem probe_flag_keeps_mode_counterexample :
    probeEnterRequest.doHttpProbe = true ∧
    probeEnterRequest.continueAfter.Mode = "enter" ∧
    Event.ProbeStart ∈ (run okWorld probeEnterRequest).trace ∧
    Event.enterReadLine ∈ (run okWorld probeEnterRequest).trace ∧
    branches (run okWorld probeEnterRequest).trace = [Branch.enter] ∧
    Branch.probe ∉ branches (run okWorld probeEnterRequest).trace ∧
    (run okWorld probeEnterRequest).continueAfter.Mode = "enter" := by
  decide

/-- C1, amended: in a run that gets to the `switch` with probing requested and
mode `enter`, `signal` or `timeout`, the probe is started and the mode is
left as configured: the wait branch that executes is the branch of that
mode (in mode `signal` its receive is on the probe's done channel) and not
the probe branch.  The probe branch executes exactly in mode `probe`, and
that mode starts a probe whether probing was requested or not. -/
theorem configured_mode_decides_branch (w : World) (q : BuildRequest)
    (hreach : reachesWait w q) :
    (q.doHttpProbe = true → q.continueAfter.Mode ∈ ["enter", "signal", "timeout"] →
      Event.ProbeStart ∈ (run w q).trace ∧
      (run w q).continueAfter.Mode = q.continueAfter.Mode ∧
      Branch.probe ∉ branches (run w q).trace ∧
      (q.continueAfter.Mode = "enter" → branches (run w q).trace = [Branch.enter]) ∧
      (q.continueAfter.Mode = "signal" →
        branches (run w q).trace = [Branch.signal] ∧
        Event.signalRecv w.DoneChan ∈ (run w q).trace) ∧
      (q.continueAfter.Mode = "timeout" → branches (run w q).trace = [Branch.timeout])) ∧
    (q.continueAfter.Mode = "probe" →
      Event.ProbeStart ∈ (run w q).trace ∧ branches (run w q).trace = [Branch.probe] ∧
      Event.probeRecv w.DoneChan ∈ (run w q).trace) ∧
    (Branch.probe ∈ branches (run w q).trace → q.continueAfter.Mode = "probe") := by
  obtain ⟨evs, ca, sw, rest, ha, hsw, ht, hca, hb, hrest, -⟩ := run_wait_shape w q hreach
  rw [ht, hca, branches_run ha hb]
  obtain ⟨s1, s2, s3, s4, s5, -⟩ := switch_events hsw
  have insw : ∀ e : Event, e ∈ sw → e ∈ launchTrace w q ++ evs ++ sw ++ rest := fun e he =>
    List.mem_append_left _ (List.mem_append_right _ he)
  rcases ha with ⟨hp, -, rfl, rfl⟩ | ⟨hbf, hm, rfl, rfl⟩
  · have hps : Event.ProbeStart ∈ launchTrace w q ++
        [Event.NewCustomProbe q.httpProbeCmds, Event.ProbeStart, Event.ProbeDoneChan] ++
        sw ++ rest := by simp
    refine ⟨fun _ hmode => ⟨hps, rfl, fun k => ?_, s1, fun k => ⟨(s2 k).1, insw _ (s2 k).2⟩,
        fun k => ?_⟩, fun k => ⟨hps, (s4 k).1, insw _ (s4 k).2⟩, s5⟩
    · have := s5 k
      simp only [List.mem_cons, List.mem_singleton, List.not_mem_nil, or_false] at hmode
      rcases hmode with h | h | h <;> rw [h] at this <;> simp at this
    · rw [s3 k]; rfl
  · refine ⟨fun k => ?_, fun k => absurd k hm, s5⟩
    rw [hbf] at k
    exact Bool.noConfusion k

/-- Witness of C1, amended: probing requested in mode `signal`. -/
theorem configured_mode_decides_branch_witness :
    reachesWait okWorld probeSignalRequest ∧ probeSignalRequest.doHttpProbe = true ∧
    probeSignalRequest.continueAfter.Mode ∈ ["enter", "signal", "timeout"] ∧
    Event.ProbeStart ∈ (run okWorld probeSignalRequest).trace ∧
    branches (run okWorld probeSignalRequest).trace = [Branch.signal] :=
  ⟨⟨⟨rfl, rfl, rfl, rfl, rfl, rfl⟩, fun _ => rfl⟩, rfl, by decide,
    ((configured_mode_decides_branch okWorld probeSignalRequest
      ⟨⟨rfl, rfl, rfl, rfl, rfl, rfl⟩, fun _ => rfl⟩).1 rfl (by decide)).1,
    ((configured_mode_decides_branch okWorld probeSignalRequest
      ⟨⟨rfl, rfl, rfl, rfl, rfl, rfl⟩, fun _ => rfl⟩).1 rfl (by decide)).2.2.2.2.1 rfl
      |>.1⟩

/-- C2: when `image.NewInspector` succeeds and `NoImage()` is true the run ends
normally and the trace is the two calls `image.NewInspector`, `NoImage`:
nothing is called after `NoImage`. -/
theorem no_image_ends_run (w : World) (q : BuildRequest)
    (hNew : w.imageNewInspectorErr = none) (hNo : w.NoImage = true) :
    (run w q).outcome = Outcome.success ∧
    (run w q).trace =
      [Event.ImageNewInspector (w.dockerclientNew q.clientConfig) q.imageRef, Event.NoImage] ∧
    (∀ c ∈ [Call.Inspect, Call.PrepareSlimDirs, Call.ImageProcessCollectedData,
        Call.ContainerNewInspector, Call.RunContainer, Call.NewCustomProbe, Call.ProbeStart,
        Call.wait, Call.FinishMonitoring, Call.ShutdownContainer, Call.HasCollectedData,
        Call.ContainerProcessCollectedData, Call.NewImageBuilder, Call.Build,
        Call.RemoveArtifacts], c ∉ calls (run w q).trace) := by
  have hr : run w q = ⟨[Event.ImageNewInspector (w.dockerclientNew q.clientConfig) q.imageRef,
      Event.NoImage], [], Outcome.success, q.continueAfter⟩ := by
    simp [run, OnBuild, FailOn, hNew, hNo]
  rw [hr]
  refine ⟨rfl, rfl, ?_⟩
  simp [calls, Event.call]

/-- Witness of C2: a world without the image. -/
theorem no_image_ends_run_witness :
    noImageWorld.imageNewInspectorErr = none ∧ noImageWorld.NoImage = true ∧
    (run noImageWorld okRequest).outcome = Outcome.success ∧
    (run noImageWorld okRequest).trace =
      [Event.ImageNewInspector (noImageWorld.dockerclientNew "unix") "app", Event.NoImage] :=
  ⟨rfl, rfl, (no_image_ends_run noImageWorld okRequest rfl rfl).1,
    (no_image_ends_run noImageWorld okRequest rfl rfl).2.1⟩

/-- C3: `NewImageBuilder` and `Build` are called only when `HasCollectedData()`
returned true, and after it; when `HasCollectedData()` is called and returns
false the trace ends with `HasCollectedData`,
`ShowFatImageDockerInstructions`, none of the container's
`ProcessCollectedData`, `NewImageBuilder`, `Build`, `RemoveArtifacts` is called
and the run ends normally. -/
theorem build_only_after_data (w : World) (q : BuildRequest) :
    (Call.NewImageBuilder ∈ calls (run w q).trace ∨ Call.Build ∈ calls (run w q).trace →
      w.HasCollectedData = true ∧
      precededBy Call.HasCollectedData Call.NewImageBuilder (calls (run w q).trace) ∧
      precededBy Call.HasCollectedData Call.Build (calls (run w q).trace)) ∧
    (Call.HasCollectedData ∈ calls (run w q).trace → w.HasCollectedData = false →
      [Call.HasCollectedData, Call.ShowFatImageDockerInstructions] <:+ calls (run w q).trace ∧
      (∀ c ∈ [Call.ContainerProcessCollectedData, Call.NewImageBuilder, Call.Build,
          Call.RemoveArtifacts], c ∉ calls (run w q).trace) ∧
      (run w q).outcome = Outcome.success) := by
  rcases calls_shape w q with ⟨m', h1, hr, ho⟩ | ⟨h1, h2, hr, ho⟩ | ⟨m', h1, h2, h3, hr, ho⟩ |
    ⟨m', h1, h2, h3, h4, hr, ho⟩ | ⟨m', h1, h2, h3, h4, h5, hr, ho⟩ |
    ⟨m', h1, h2, h3, h4, h5, h6, hr, ho⟩ | ⟨m', ⟨h1, h2, h3, h4, h5, h6⟩, hp, he, hr, ho⟩ |
    ⟨pc, ⟨h1, h2, h3, h4, h5, h6⟩, ⟨hp, he, rfl⟩ | ⟨hp, rfl⟩, ⟨hm, hr, ho⟩ | ⟨hm, hr, ho⟩ |
      ⟨fc, hm, hr, ⟨g1, rfl, ho, hw⟩ | ⟨m', g1, g2, rfl, ho, hw⟩ |
        ⟨m', g1, g2, g3, rfl, ho, hw⟩ | ⟨m', g1, g2, g3, g4, rfl, ho, hw⟩ |
        ⟨g1, g2, g3, g4, g5, rfl, ho, hw⟩ | ⟨g1, g2, g3, g4, g5, rfl, ho, hw⟩⟩⟩
  all_goals rw [hr, ho]
  all_goals clear hr ho
  all_goals refine ⟨?_, ?_⟩
  all_goals first
    | (intro hx; exact absurd hx (by decide))
    | (intro _ hy; rw [g1] at hy; exact Bool.noConfusion hy)
    | (intro _; exact ⟨g1, by decide, by decide⟩)
    | (intro _ _; exact ⟨by decide, by decide, rfl⟩)

/-- Witness of C3: with data the builder is called after `HasCollectedData`;
without data the run ends normally after `ShowFatImageDockerInstructions`. -/
theorem build_only_after_data_witness :
    Call.NewImageBuilder ∈ calls (run okWorld okRequest).trace ∧
    okWorld.HasCollectedData = true ∧
    precededBy Call.HasCollectedData Call.NewImageBuilder (calls (run okWorld okRequest).trace) ∧
    Call.HasCollectedData ∈ calls (run noDataWorld okRequest).trace ∧
    noDataWorld.HasCollectedData = false ∧
    (run noDataWorld okRequest).outcome = Outcome.success :=
  ⟨by decide,
    ((build_only_after_data okWorld okRequest).1 (Or.inl (by decide))).1,
    ((build_only_after_data okWorld okRequest).1 (Or.inl (by decide))).2.1,
    by decide, rfl,
    ((build_only_after_data noDataWorld okRequest).2 (by decide) rfl).2.2⟩

/-- C4: two runs that differ only in what `ShutdownContainer` and
`RemoveArtifacts` return make the same calls, end the same way and leave
the same `continueAfter`; and when `ShutdownContainer` is called and returns
an error, the error is only warned about: `HasCollectedData` is called, with
data the container's `ProcessCollectedData` is called, and when that and
`NewImageBuilder` succeed `Build` is called. -/
theorem warn_errors_do_not_change_run (w : World) (q : BuildRequest)
    (e1 e2 e1' e2' : Error) :
    ((run (w.withWarnErrors e1 e2) q).trace = (run (w.withWarnErrors e1' e2') q).trace ∧
      (run (w.withWarnErrors e1 e2) q).outcome = (run (w.withWarnErrors e1' e2') q).outcome ∧
      (run (w.withWarnErrors e1 e2) q).continueAfter =
        (run (w.withWarnErrors e1' e2') q).continueAfter) ∧
    (∀ m, w.ShutdownContainerErr = some m → Call.ShutdownContainer ∈ calls (run w q).trace →
      m ∈ (run w q).warnings ∧ Call.HasCollectedData ∈ calls (run w q).trace ∧
      (w.HasCollectedData = true →
        Call.ContainerProcessCollectedData ∈ calls (run w q).trace ∧
        (w.containerProcessCollectedDataErr = none → w.NewImageBuilderErr = none →
          Call.Build ∈ calls (run w q).trace ∧
          (w.BuildErr = none → (run w q).outcome = Outcome.success)))) := by
  refine ⟨?_, ?_⟩
  · obtain ⟨a1, a2, a3⟩ := run_withWarnErrors w q e1 e2
    obtain ⟨b1, b2, b3⟩ := run_withWarnErrors w q e1' e2'
    exact ⟨a1.trans b1.symm, a2.trans b2.symm, a3.trans b3.symm⟩
  · intro m hsd hcalled
    rcases calls_shape w q with ⟨m', h1, hr, ho⟩ | ⟨h1, h2, hr, ho⟩ | ⟨m', h1, h2, h3, hr, ho⟩ |
    ⟨m', h1, h2, h3, h4, hr, ho⟩ | ⟨m', h1, h2, h3, h4, h5, hr, ho⟩ |
    ⟨m', h1, h2, h3, h4, h5, h6, hr, ho⟩ | ⟨m', ⟨h1, h2, h3, h4, h5, h6⟩, hp, he, hr, ho⟩ |
    ⟨pc, ⟨h1, h2, h3, h4, h5, h6⟩, ⟨hp, he, rfl⟩ | ⟨hp, rfl⟩, ⟨hm, hr, ho⟩ | ⟨hm, hr, ho⟩ |
      ⟨fc, hm, hr, ⟨g1, rfl, ho, hw⟩ | ⟨m', g1, g2, rfl, ho, hw⟩ |
        ⟨m', g1, g2, g3, rfl, ho, hw⟩ | ⟨m', g1, g2, g3, g4, rfl, ho, hw⟩ |
        ⟨g1, g2, g3, g4, g5, rfl, ho, hw⟩ | ⟨g1, g2, g3, g4, g5, rfl, ho, hw⟩⟩⟩
    all_goals rw [hr] at hcalled ⊢
    all_goals first
      | exact absurd hcalled (by decide)
      | (rw [ho, hw, hsd]
         exact ⟨by simp [WarnOn], by decide, fun k => by simp_all⟩)

/-- Witness of C4: `ShutdownContainer` and `RemoveArtifacts` both fail and the
image is still built. -/
theorem warn_errors_do_not_change_run_witness :
    (run (okWorld.withWarnErrors (some "stop failed") (some "rm failed")) okRequest).trace =
      (run (okWorld.withWarnErrors none none) okRequest).trace ∧
    (okWorld.withWarnErrors (some "stop failed") none).ShutdownContainerErr =
      some "stop failed" ∧
    Call.ShutdownContainer ∈
      calls (run (okWorld.withWarnErrors (some "stop failed") none) okRequest).trace ∧
    "stop failed" ∈ (run (okWorld.withWarnErrors (some "stop failed") none) okRequest).warnings ∧
    Call.Build ∈
      calls (run (okWorld.withWarnErrors (some "stop failed") none) okRequest).trace :=
  ⟨(warn_errors_do_not_change_run okWorld okRequest (some "stop failed") (some "rm failed")
      none none).1.1,
    rfl, by decide,
    ((warn_errors_do_not_change_run (okWorld.withWarnErrors (some "stop failed") none)
      okRequest none none none none).2 "stop failed" rfl (by decide)).1,
    (((warn_errors_do_not_change_run (okWorld.withWarnErrors (some "stop failed") none)
      okRequest none none none none).2 "stop failed" rfl (by decide)).2.2 rfl).2 rfl rfl |>.1⟩

/-- C5: when a call of the fatal tier (`Inspect`, the image's
`ProcessCollectedData`, `container.NewInspector`, `RunContainer`, the
container's `ProcessCollectedData`, `NewImageBuilder`, `Build`) is made and
returns an error, it is the last call of the trace, it occurs once, and the
run ends fatally with that error. -/
theorem fatal_call_ends_run (w : World) (q : BuildRequest) (c : Call) (m : String)
    (hc : c ∈ fatalTier) (hcalled : c ∈ calls (run w q).trace) (herr : w.errorOf c = some m) :
    (calls (run w q).trace).getLast? = some c ∧ (calls (run w q).trace).count c = 1 ∧
    (run w q).outcome = Outcome.fatal m := by
  simp only [fatalTier, List.mem_cons, List.mem_singleton, List.not_mem_nil, or_false] at hc
  rcases calls_shape w q with ⟨m', h1, hr, ho⟩ | ⟨h1, h2, hr, ho⟩ | ⟨m', h1, h2, h3, hr, ho⟩ |
    ⟨m', h1, h2, h3, h4, hr, ho⟩ | ⟨m', h1, h2, h3, h4, h5, hr, ho⟩ |
    ⟨m', h1, h2, h3, h4, h5, h6, hr, ho⟩ | ⟨m', ⟨h1, h2, h3, h4, h5, h6⟩, hp, he, hr, ho⟩ |
    ⟨pc, ⟨h1, h2, h3, h4, h5, h6⟩, ⟨hp, he, rfl⟩ | ⟨hp, rfl⟩, ⟨hm, hr, ho⟩ | ⟨hm, hr, ho⟩ |
      ⟨fc, hm, hr, ⟨g1, rfl, ho, hw⟩ | ⟨m', g1, g2, rfl, ho, hw⟩ |
        ⟨m', g1, g2, g3, rfl, ho, hw⟩ | ⟨m', g1, g2, g3, g4, rfl, ho, hw⟩ |
        ⟨g1, g2, g3, g4, g5, rfl, ho, hw⟩ | ⟨g1, g2, g3, g4, g5, rfl, ho, hw⟩⟩⟩
  all_goals rw [hr] at hcalled
  all_goals rw [hr, ho]
  all_goals rcases hc with rfl | rfl | rfl | rfl | rfl | rfl | rfl
  all_goals simp only [World.errorOf] at herr
  all_goals first
    | (exfalso; revert hcalled; decide)
    | (exfalso; simp_all; done)
    | (refine ⟨by decide, by decide, ?_⟩; simp_all)

/-- Witness of C5: `builder.Build` fails; it is the last call and the run ends
fatally with its error. -/
theorem fatal_call_ends_run_witness :
    Call.Build ∈ fatalTier ∧ Call.Build ∈ calls (run buildFailWorld okRequest).trace ∧
    buildFailWorld.errorOf Call.Build = some "build failed" ∧
    (calls (run buildFailWorld okRequest).trace).getLast? = some Call.Build ∧
    (run buildFailWorld okRequest).outcome = Outcome.fatal "build failed" :=
  ⟨by decide, by decide, rfl,
    (fatal_call_ends_run buildFailWorld okRequest Call.Build "build failed" (by decide)
      (by decide) rfl).1,
    (fatal_call_ends_run buildFailWorld okRequest Call.Build "build failed" (by decide)
      (by decide) rfl).2.2⟩

/-- C6: for the four modes a run that gets to the `switch` goes through exactly
one wait branch; `probe.Start`, when called, comes before the wait; the run
stays blocked in the wait or the wait is released and `FinishMonitoring` is
called.  In every run a release has the wait before it and
`FinishMonitoring` has a release before it. -/
theorem one_wait_then_finish (w : World) (q : BuildRequest) :
    (precededBy Call.wait Call.released (calls (run w q).trace) ∧
      precededBy Call.released Call.FinishMonitoring (calls (run w q).trace)) ∧
    (q.continueAfter.Mode ∈ waitModes → reachesWait w q →
      (branches (run w q).trace).length = 1 ∧
      (Call.ProbeStart ∈ calls (run w q).trace ↔ q.probing) ∧
      (Call.ProbeStart ∈ calls (run w q).trace →
        precededBy Call.ProbeStart Call.wait (calls (run w q).trace)) ∧
      (((run w q).outcome = Outcome.blocked ∧ Call.released ∉ calls (run w q).trace ∧
          Call.FinishMonitoring ∉ calls (run w q).trace) ∨
        (Call.released ∈ calls (run w q).trace ∧
          Call.FinishMonitoring ∈ calls (run w q).trace ∧
          (run w q).outcome ≠ Outcome.blocked))) := by
  rcases calls_shape w q with ⟨m', h1, hr, ho⟩ | ⟨h1, h2, hr, ho⟩ | ⟨m', h1, h2, h3, hr, ho⟩ |
    ⟨m', h1, h2, h3, h4, hr, ho⟩ | ⟨m', h1, h2, h3, h4, h5, hr, ho⟩ |
    ⟨m', h1, h2, h3, h4, h5, h6, hr, ho⟩ | ⟨m', ⟨h1, h2, h3, h4, h5, h6⟩, hp, he, hr, ho⟩ |
    ⟨pc, ⟨h1, h2, h3, h4, h5, h6⟩, ⟨hp, he, rfl⟩ | ⟨hp, rfl⟩, ⟨hm, hr, ho⟩ | ⟨hm, hr, ho⟩ |
      ⟨fc, hm, hr, ⟨g1, rfl, ho, hw⟩ | ⟨m', g1, g2, rfl, ho, hw⟩ |
        ⟨m', g1, g2, g3, rfl, ho, hw⟩ | ⟨m', g1, g2, g3, g4, rfl, ho, hw⟩ |
        ⟨g1, g2, g3, g4, g5, rfl, ho, hw⟩ | ⟨g1, g2, g3, g4, g5, rfl, ho, hw⟩⟩⟩
  all_goals rw [branches_length, hr, ho]
  all_goals clear hr ho
  all_goals refine ⟨⟨by decide, by decide⟩, fun hmode hreach => ?_⟩
  all_goals first
    | exact ⟨by decide, iff_of_true (by decide) hp, fun _ => by decide,
        Or.inl ⟨rfl, by decide, by decide⟩⟩
    | exact ⟨by decide, iff_of_false (by decide) hp, fun hx => absurd hx (by decide),
        Or.inl ⟨rfl, by decide, by decide⟩⟩
    | exact ⟨by decide, iff_of_true (by decide) hp, fun _ => by decide,
        Or.inr ⟨by decide, by decide, by simp⟩⟩
    | exact ⟨by decide, iff_of_false (by decide) hp, fun hx => absurd hx (by decide),
        Or.inr ⟨by decide, by decide, by simp⟩⟩
    | exact absurd hmode hm
    | (exfalso; obtain ⟨⟨k1, k2, k3, k4, k5, k6⟩, kp⟩ := hreach; simp_all)

/-- Witness of C6: probing requested in mode `signal`; one wait branch, after
`probe.Start`. -/
theorem one_wait_then_finish_witness :
    probeSignalRequest.continueAfter.Mode ∈ waitModes ∧
    reachesWait okWorld probeSignalRequest ∧
    (branches (run okWorld probeSignalRequest).trace).length = 1 ∧
    precededBy Call.ProbeStart Call.wait (calls (run okWorld probeSignalRequest).trace) :=
  ⟨by decide, ⟨⟨rfl, rfl, rfl, rfl, rfl, rfl⟩, fun _ => rfl⟩,
    ((one_wait_then_finish okWorld probeSignalRequest).2 (by decide)
      ⟨⟨rfl, rfl, rfl, rfl, rfl, rfl⟩, fun _ => rfl⟩).1,
    ((one_wait_then_finish okWorld probeSignalRequest).2 (by decide)
      ⟨⟨rfl, rfl, rfl, rfl, rfl, rfl⟩, fun _ => rfl⟩).2.2.1 (by decide)⟩

/-- C7: the event that calls `builder.NewImageBuilder` carries the tag
`imageInspector.SlimImageRepo` when `customImageTag` is empty and
`customImageTag` itself otherwise; its other arguments are the client that
was passed to `image.NewInspector`, `imageInspector.ImageInfo`, the artifact
location returned by `utils.PrepareSlimDirs`, `imageOverrides` and
`overrides`; and a run that calls `builder.NewImageBuilder` has such an
event. -/
theorem builder_arguments (w : World) (q : BuildRequest) :
    (∀ c tag info loc io ov, Event.NewImageBuilder c tag info loc io ov ∈ (run w q).trace →
      (q.customImageTag = "" → tag = w.SlimImageRepo) ∧
      (q.customImageTag ≠ "" → tag = q.customImageTag) ∧
      c = w.dockerclientNew q.clientConfig ∧ info = w.ImageInfo ∧
      loc = (w.PrepareSlimDirs q.statePath w.ImageInfo.ID).2 ∧
      io = q.imageOverrides ∧ ov = q.overrides ∧
      Event.ImageNewInspector c q.imageRef ∈ (run w q).trace ∧
      Event.PrepareSlimDirs q.statePath w.ImageInfo.ID ∈ (run w q).trace) ∧
    (Call.NewImageBuilder ∈ calls (run w q).trace →
      Event.NewImageBuilder (w.dockerclientNew q.clientConfig)
        (if q.customImageTag = "" then w.SlimImageRepo else q.customImageTag) w.ImageInfo
        (w.PrepareSlimDirs q.statePath w.ImageInfo.ID).2 q.imageOverrides q.overrides ∈
        (run w q).trace) := by
  refine ⟨?_, ?_⟩
  · intro c tag info loc io ov he
    obtain ⟨heq, hl⟩ := newImageBuilder_event w q he rfl
    simp only [BuildRequest.newImageBuilder, Event.NewImageBuilder.injEq] at heq
    obtain ⟨rfl, rfl, rfl, rfl, rfl, rfl⟩ := heq
    refine ⟨fun h => by simp [h], fun h => by simp [h], rfl, rfl, rfl, rfl, rfl, ?_, ?_⟩
    · exact hl _ (by simp [launchTrace])
    · exact hl _ (by simp [launchTrace])
  · intro h
    obtain ⟨e, he, hc⟩ := List.mem_map.1 h
    have := (newImageBuilder_event w q he hc).1
    rw [this] at he
    exact he

/-- Witness of C7: without a custom tag the builder gets the tag derived from
the image, with one it gets the custom tag. -/
theorem builder_arguments_witness :
    Event.NewImageBuilder "client:unix" "app.slim" ⟨"sha256:abc", 1000⟩
      "/state/sha256:abc/artifacts" [] noOverrides ∈ (run okWorld okRequest).trace ∧
    Event.NewImageBuilder "client:unix" "my/tag" ⟨"sha256:abc", 1000⟩
      "/state/sha256:abc/artifacts" [] noOverrides ∈ (run okWorld taggedRequest).trace ∧
    okRequest.customImageTag = "" ∧ "app.slim" = okWorld.SlimImageRepo ∧
    taggedRequest.customImageTag ≠ "" ∧ "my/tag" = taggedRequest.customImageTag :=
  ⟨by decide, by decide, rfl,
    ((builder_arguments okWorld okRequest).1 "client:unix" "app.slim" ⟨"sha256:abc", 1000⟩
      "/state/sha256:abc/artifacts" [] noOverrides (by decide)).1 rfl,
    by decide,
    ((builder_arguments okWorld taggedRequest).1 "client:unix" "my/tag" ⟨"sha256:abc", 1000⟩
      "/state/sha256:abc/artifacts" [] noOverrides (by decide)).2.1 (by decide)⟩

/-- C8: with a mode for which the `switch` has no `case`, no probing and every
earlier call succeeding, the trace is the seven calls of the launch followed
by `utils.Fail("unknown continue-after mode")`, and the run ends fatally:
`FinishMonitoring`, `ShutdownContainer`, `NewImageBuilder` and `Build` are not
called. -/
theorem unknown_mode_is_fatal (w : World) (q : BuildRequest)
    (hmode : q.continueAfter.Mode ∉ waitModes) (hprobe : q.doHttpProbe = false)
    (hl : w.launches) :
    (run w q).trace =
      [Event.ImageNewInspector (w.dockerclientNew q.clientConfig) q.imageRef,
       Event.NoImage,
       Event.Inspect,
       Event.PrepareSlimDirs q.statePath w.ImageInfo.ID,
       Event.ImageProcessCollectedData,
       Event.ContainerNewInspector (w.dockerclientNew q.clientConfig)
         ⟨w.ImageInfo, w.SlimImageRepo, (w.PrepareSlimDirs q.statePath w.ImageInfo.ID).2⟩
         (w.PrepareSlimDirs q.statePath w.ImageInfo.ID).1 q.overrides q.doShowContainerLogs
         q.volumeMounts q.excludePaths q.includePaths q.doDebug,
       Event.RunContainer,
       Event.Fail "unknown continue-after mode"] ∧
    calls (run w q).trace =
      [Call.ImageNewInspector, Call.NoImage, Call.Inspect, Call.PrepareSlimDirs,
       Call.ImageProcessCollectedData, Call.ContainerNewInspector, Call.RunContainer,
       Call.Fail] ∧
    (run w q).outcome = Outcome.fatal "unknown continue-after mode" ∧
    (∀ c ∈ [Call.FinishMonitoring, Call.ShutdownContainer, Call.NewImageBuilder, Call.Build],
      c ∉ calls (run w q).trace) := by
  simp only [waitModes, List.mem_cons, List.mem_singleton, List.not_mem_nil, or_false,
    not_or] at hmode
  obtain ⟨m1, m2, m3, m4⟩ := hmode
  have hr : run w q = ⟨launchTrace w q ++ [Event.Fail "unknown continue-after mode"], [],
      Outcome.fatal "unknown continue-after mode", q.continueAfter⟩ := by
    rw [run_of_launches w q hl]
    have hp : startProbe w q.doHttpProbe q.httpProbeCmds q.continueAfter =
        ([], none, q.continueAfter) := by
      simp [startProbe, hprobe, Ne.symm m4]
    have hs : continueAfterSwitch w q.continueAfter =
        ([Event.Fail "unknown continue-after mode"],
          some (Outcome.fatal "unknown continue-after mode")) := by
      simp [continueAfterSwitch, Fail, m1, m2, m3, m4]
    simp only [hp, hs, List.append_nil]
  rw [hr]
  exact ⟨rfl, rfl, rfl,
    show ∀ c ∈ [Call.FinishMonitoring, Call.ShutdownContainer, Call.NewImageBuilder,
      Call.Build], c ∉ launchCalls ++ [Call.Fail] by decide⟩

/-- Witness of C8: the mode `bogus` in a world where every call succeeds. -/
theorem unknown_mode_is_fatal_witness :
    bogusRequest.continueAfter.Mode ∉ waitModes ∧ bogusRequest.doHttpProbe = false ∧
    okWorld.launches ∧
    calls (run okWorld bogusRequest).trace =
      [Call.ImageNewInspector, Call.NoImage, Call.Inspect, Call.PrepareSlimDirs,
       Call.ImageProcessCollectedData, Call.ContainerNewInspector, Call.RunContainer,
       Call.Fail] ∧
    (run okWorld bogusRequest).outcome = Outcome.fatal "unknown continue-after mode" :=
  ⟨by decide, rfl, ⟨rfl, rfl, rfl, rfl, rfl, rfl⟩,
    (unknown_mode_is_fatal okWorld bogusRequest (by decide) rfl
      ⟨rfl, rfl, rfl, rfl, rfl, rfl⟩).2.1,
    (unknown_mode_is_fatal okWorld bogusRequest (by decide) rfl
      ⟨rfl, rfl, rfl, rfl, rfl, rfl⟩).2.2.1⟩

/-- Counterexample to C9 as stated: with `Timeout` 9223372037 the product with
`time.Second` wraps; the timer is armed with -9223372036709551616
nanoseconds, which is neither 9223372037 seconds nor 9223372037
nanoseconds. -/
theorem timeout_wraps_counterexample :
    longTimeoutRequest.continueAfter.Mode = "timeout" ∧
    longTimeoutRequest.continueAfter.Timeout = 9223372037 ∧
    longTimeoutRequest.doHttpProbe = false ∧
    Event.timeoutAfter (-9223372036709551616) ∈ (run okWorld longTimeoutRequest).trace ∧
    Event.timeoutAfter (timeSecond * 9223372037) ∉ (run okWorld longTimeoutRequest).trace ∧
    Event.timeoutAfter 9223372037 ∉ (run okWorld longTimeoutRequest).trace := by
  decide

/-- C9, amended: in mode `timeout` without probing, for every `Timeout` the wait
is a timer whose duration is `time.Second * Timeout` wrapped to 64 bits, and
for a `Timeout` of at most 9223372036 seconds either way that is exactly
`Timeout` seconds (`time.Second * Timeout` nanoseconds).  For every
`Timeout` the timer is the only wait of the run, the run receives from no
channel and reads no line, the wait is released, and the run is the same
whatever standard input and the channels do. -/
theorem timeout_wait_uses_timer (w : World) (q : BuildRequest) (hl : w.launches)
    (hmode : q.continueAfter.Mode = "timeout") (hprobe : q.doHttpProbe = false) :
    Event.timeoutAfter (secondsTimes q.continueAfter.Timeout) ∈ (run w q).trace ∧
    (-9223372036 ≤ q.continueAfter.Timeout → q.continueAfter.Timeout ≤ 9223372036 →
      Event.timeoutAfter (timeSecond * q.continueAfter.Timeout) ∈ (run w q).trace) ∧
    branches (run w q).trace = [Branch.timeout] ∧
    (∀ ch, Event.signalRecv ch ∉ (run w q).trace ∧ Event.probeRecv ch ∉ (run w q).trace) ∧
    Event.enterReadLine ∉ (run w q).trace ∧
    Event.released ∈ (run w q).trace ∧
    (run w q).outcome ≠ Outcome.blocked ∧
    (∀ b f, run (w.withReleases b f) q = run w q) := by
  have hnp : ¬ q.probing := by simp [BuildRequest.probing, hprobe, hmode]
  have tail : ∀ w' : World, w'.launches → ¬ q.probing →
      ∃ rest, run w' q = finishBuild w' (q.client w') (q.artifactLocation w') q.customImageTag
        q.doRmFileArtifacts q.imageOverrides q.overrides q.continueAfter
        (launchTrace w' q ++
          [Event.timeoutAfter (secondsTimes q.continueAfter.Timeout), Event.released]) ∧
        (run w' q).trace = launchTrace w' q ++
          [Event.timeoutAfter (secondsTimes q.continueAfter.Timeout), Event.released] ++ rest ∧
        branches rest = [] ∧ (∀ e ∈ rest, e.call ∈ finishCalls) ∧
        (run w' q).outcome ≠ Outcome.blocked := by
    intro w' hl' _
    have hp : startProbe w' q.doHttpProbe q.httpProbeCmds q.continueAfter =
        ([], none, q.continueAfter) := by
      simp [startProbe, hprobe, hmode]
    have hs : continueAfterSwitch w' q.continueAfter =
        ([Event.timeoutAfter (secondsTimes q.continueAfter.Timeout), Event.released],
          none) := by
      simp [continueAfterSwitch, hmode]
    have hr := run_of_launches w' q hl'
    simp only [hp, hs, List.append_nil] at hr
    obtain ⟨rest, warns, o, hf, hfin⟩ := finishBuild_finished w' q
      (launchTrace w' q ++
        [Event.timeoutAfter (secondsTimes q.continueAfter.Timeout), Event.released])
      q.continueAfter
    refine ⟨rest, hr, by rw [hr, hfin], (finished_outcome hf).2,
      fun e he => finished_calls hf he, by rw [hr, hfin]; exact (finished_outcome hf).1⟩
  obtain ⟨rest, -, ht, hb, hrest, ho⟩ := tail w hl hnp
  have nomid : ∀ e : Event, e.call = Call.wait →
      e ≠ Event.timeoutAfter (secondsTimes q.continueAfter.Timeout) → e ∉ (run w q).trace := by
    intro e hc hne he
    rw [ht] at he
    simp only [List.mem_append, List.mem_cons, List.mem_singleton, List.not_mem_nil,
      or_false] at he
    rcases he with (he | he | he) | he
    · exact absurd (hc ▸ launchTrace_calls he) (by decide)
    · exact hne he
    · rw [he] at hc; cases hc
    · exact absurd (hc ▸ hrest e he) (by decide)
  refine ⟨by rw [ht]; simp,
    fun hlo hhi => by rw [ht, ← secondsTimes_eq _ hlo hhi]; simp, ?_, fun ch => ⟨nomid _ rfl (by simp), nomid _ rfl (by simp)⟩,
    nomid _ rfl (by simp), by rw [ht]; simp, ho, fun b f => ?_⟩
  · rw [ht, branches_append, branches_append, hb]
    rfl
  · obtain ⟨_, h1, -⟩ := tail (w.withReleases b f) hl hnp
    obtain ⟨_, h2, -⟩ := tail w hl hnp
    rw [h1, h2]
    rfl

/-- Witness of C9, amended: a `Timeout` of 5 arms a timer of 5000000000
nanoseconds; a `Timeout` of 9223372037, outside the range, still gives one
timer wait and no other. -/
theorem timeout_wait_uses_timer_witness :
    okWorld.launches ∧ timeoutRequest.continueAfter.Mode = "timeout" ∧
    timeoutRequest.doHttpProbe = false ∧
    (-9223372036 : Int) ≤ timeoutRequest.continueAfter.Timeout ∧
    timeoutRequest.continueAfter.Timeout ≤ 9223372036 ∧
    Event.timeoutAfter 5000000000 ∈ (run okWorld timeoutRequest).trace ∧
    branches (run okWorld timeoutRequest).trace = [Branch.timeout] ∧
    longTimeoutRequest.continueAfter.Mode = "timeout" ∧
    longTimeoutRequest.doHttpProbe = false ∧
    branches (run okWorld longTimeoutRequest).trace = [Branch.timeout] ∧
    Event.released ∈ (run okWorld longTimeoutRequest).trace :=
  ⟨⟨rfl, rfl, rfl, rfl, rfl, rfl⟩, rfl, rfl, by decide, by decide,
    (timeout_wait_uses_timer okWorld timeoutRequest ⟨rfl, rfl, rfl, rfl, rfl, rfl⟩ rfl
      rfl).2.1 (by decide) (by decide),
    (timeout_wait_uses_timer okWorld timeoutRequest ⟨rfl, rfl, rfl, rfl, rfl, rfl⟩ rfl
      rfl).2.2.1,
    rfl, rfl,
    (timeout_wait_uses_timer okWorld longTimeoutRequest ⟨rfl, rfl, rfl, rfl, rfl, rfl⟩ rfl
      rfl).2.2.1,
    (timeout_wait_uses_timer okWorld longTimeoutRequest ⟨rfl, rfl, rfl, rfl, rfl, rfl⟩ rfl
      rfl).2.2.2.2.2.1⟩

/-- C10: in a run that gets past `RunContainer`, `http.NewCustomProbe` is called
exactly when `doHttpProbe` is true or the mode is `probe`; when the run gets
to the `switch`, `probe.Start` is called under the same condition; a started
probe puts its `DoneChan()` in `continueAfter.ContinueChan` whatever the mode
(in mode `signal` the wait then receives from the probe's channel), and
without a probe `continueAfter` is left as it was. -/
theorem probe_started_iff_requested (w : World) (q : BuildRequest) (hl : w.launches) :
    (Call.NewCustomProbe ∈ calls (run w q).trace ↔
      q.doHttpProbe = true ∨ q.continueAfter.Mode = "probe") ∧
    (reachesWait w q →
      (Event.NewCustomProbe q.httpProbeCmds ∈ (run w q).trace ∧
          Event.ProbeStart ∈ (run w q).trace ↔
        q.doHttpProbe = true ∨ q.continueAfter.Mode = "probe") ∧
      (Event.ProbeStart ∈ (run w q).trace →
        Event.ProbeDoneChan ∈ (run w q).trace ∧
        (run w q).continueAfter =
          ⟨q.continueAfter.Mode, q.continueAfter.Timeout, w.DoneChan⟩ ∧
        (q.continueAfter.Mode = "signal" → Event.signalRecv w.DoneChan ∈ (run w q).trace)) ∧
      (Event.ProbeStart ∉ (run w q).trace →
        (run w q).continueAfter = q.continueAfter ∧
        (q.continueAfter.Mode = "signal" →
          Event.signalRecv q.continueAfter.ContinueChan ∈ (run w q).trace))) := by
  refine ⟨?_, fun hreach => ?_⟩
  · obtain ⟨k1, k2, k3, k4, k5, k6⟩ := hl
    rcases calls_shape w q with ⟨m', h1, hr, ho⟩ | ⟨h1, h2, hr, ho⟩ | ⟨m', h1, h2, h3, hr, ho⟩ |
      ⟨m', h1, h2, h3, h4, hr, ho⟩ | ⟨m', h1, h2, h3, h4, h5, hr, ho⟩ |
      ⟨m', h1, h2, h3, h4, h5, h6, hr, ho⟩ | ⟨m', ⟨h1, h2, h3, h4, h5, h6⟩, hp, he, hr, ho⟩ |
      ⟨pc, ⟨h1, h2, h3, h4, h5, h6⟩, ⟨hp, he, rfl⟩ | ⟨hp, rfl⟩, ⟨hm, hr, ho⟩ | ⟨hm, hr, ho⟩ |
        ⟨fc, hm, hr, ⟨g1, rfl, ho, hw⟩ | ⟨m', g1, g2, rfl, ho, hw⟩ |
          ⟨m', g1, g2, g3, rfl, ho, hw⟩ | ⟨m', g1, g2, g3, g4, rfl, ho, hw⟩ |
          ⟨g1, g2, g3, g4, g5, rfl, ho, hw⟩ | ⟨g1, g2, g3, g4, g5, rfl, ho, hw⟩⟩⟩
    all_goals rw [hr]
    all_goals first
      | exact iff_of_true (by decide) hp
      | exact iff_of_false (by decide) hp
      | (exfalso; simp_all)
  · obtain ⟨evs, ca, sw, rest, ha, hsw, ht, hca, -, hrest, -⟩ := run_wait_shape w q hreach
    rw [ht, hca]
    have hswc : ∀ e ∈ sw, e.call ∈ [Call.wait, Call.Fail, Call.released] := by
      intro e he
      rcases hsw with ⟨o, hh⟩ | hrel
      · have := halted_calls hh he
        revert this; generalize e.call = c; revert c; decide
      · have := released_calls hrel he
        revert this; generalize e.call = c; revert c; decide
    have nsw : ∀ e : Event, e.call ∈ probeCalls → e ∉ sw := fun e hc he =>
      absurd (hswc e he) (by revert hc; generalize e.call = c; revert c; decide)
    have m1 := @mem_middle w q evs sw rest (Event.NewCustomProbe q.httpProbeCmds) hrest
      (show Call.NewCustomProbe ∉ launchCalls ++ finishCalls by decide)
    have m2 := @mem_middle w q evs sw rest Event.ProbeStart hrest (by decide)
    have m3 := @mem_middle w q evs sw rest Event.ProbeDoneChan hrest (by decide)
    have m4 : ∀ ch, Event.signalRecv ch ∈ launchTrace w q ++ evs ++ sw ++ rest ↔
        Event.signalRecv ch ∈ evs ∨ Event.signalRecv ch ∈ sw :=
      fun ch => @mem_middle w q evs sw rest (Event.signalRecv ch) hrest
        (show Call.wait ∉ launchCalls ++ finishCalls by decide)
    rw [m1, m2, m3]
    simp only [m4]
    have sig := (switch_events hsw).2.1
    rcases ha with ⟨hp, -, rfl, rfl⟩ | ⟨hb, hm, rfl, rfl⟩
    · refine ⟨iff_of_true ⟨Or.inl (by simp), Or.inl (by simp)⟩ hp,
        fun _ => ⟨Or.inl (by simp), rfl, fun k => Or.inr (sig k).2⟩, fun k => ?_⟩
      exact absurd (Or.inl (by simp)) k
    · have n2 : Event.ProbeStart ∉ sw :=
        nsw Event.ProbeStart (show Call.ProbeStart ∈ probeCalls by decide)
      have n0 : ¬ (Event.ProbeStart ∈ ([] : List Event) ∨ Event.ProbeStart ∈ sw) := by
        simp [n2]
      exact ⟨iff_of_false (fun k => n0 k.2) (by simp [hb, hm]), fun k => absurd k n0,
        fun _ => ⟨rfl, fun k => Or.inr (sig k).2⟩⟩

/-- Witness of C10: probing requested in mode `signal`; the wait receives from
the probe's channel 7, not from the caller's channel 3. -/
theorem probe_started_iff_requested_witness :
    okWorld.launches ∧ reachesWait okWorld probeSignalRequest ∧
    Event.ProbeStart ∈ (run okWorld probeSignalRequest).trace ∧
    (run okWorld probeSignalRequest).continueAfter = ⟨"signal", 5, 7⟩ ∧
    Event.signalRecv 7 ∈ (run okWorld probeSignalRequest).trace :=
  ⟨⟨rfl, rfl, rfl, rfl, rfl, rfl⟩, ⟨⟨rfl, rfl, rfl, rfl, rfl, rfl⟩, fun _ => rfl⟩,
    by decide,
    (((probe_started_iff_requested okWorld probeSignalRequest
      ⟨rfl, rfl, rfl, rfl, rfl, rfl⟩).2
      ⟨⟨rfl, rfl, rfl, rfl, rfl, rfl⟩, fun _ => rfl⟩).2.1 (by decide)).2.1,
    (((probe_started_iff_requested okWorld probeSignalRequest
      ⟨rfl, rfl, rfl, rfl, rfl, rfl⟩).2
      ⟨⟨rfl, rfl, rfl, rfl, rfl, rfl⟩, fun _ => rfl⟩).2.1 (by decide)).2.2 rfl⟩

end DockerSlim
